import Mathlib

/-!
Verification of the TC39-signals reactive core (`src/signals.ts`) and its
effect scheduler (`src/effect.ts`).

The engine is shallowly embedded: the process-wide mutable context
(`activeConsumer`, `inNotificationPhase`, `epoch`, the effect scheduler's
`needsEnqueue` flag and microtask queue) and the arena of reactive nodes
become an explicit `EngineState`; each source function becomes a Lean
function from `EngineState` to a result carrying the updated state; JS
exceptions become an explicit error outcome that still carries the state at
the point of the throw.  Recursion through the (dynamically built) graph is
bounded by an explicit fuel parameter; running out of fuel is a distinct
outcome (`EngineErr.outOfFuel`) that is never confused with a JS exception.

Ghost instrumentation (present in no source field, changing no behaviour):
`recomputeCount` counts invocations of a Computed's computation function,
`watchedCount` / `unwatchedCount` count the points where the optional
`watched` / `unwatched` lifecycle hooks are called (`node.watched?.call`),
and per-effect `runCount` / `cleanupCount` count invocations of an effect
callback and of its stored cleanup function.

Computed computations and effect callbacks are closures in the source; they
are embedded as a small expression language `Expr` whose evaluation is
interpreted by the engine itself (reads go through the same `get()` paths).
-/

/-- JS values flowing through the engine: numbers, `undefined`, and the three
sentinel symbols `UNSET` / `COMPUTING` / `ERRORED` that Computed stores in its
value slot. -/
inductive Value where
  | int (n : Int)
  | undefV
  | unset
  | computing
  | errored
deriving DecidableEq, Repr

/-- The JS exceptions the engine can throw: the two reentrancy guards, the
cycle error, and user exceptions thrown by computations (identified by a tag,
standing for the identity of the thrown object).  `nullThrown` models
`throw node.error` when the error slot is still `null`. -/
inductive JsErr where
  | readInNotify
  | writeInNotify
  | cycle
  | userErr (tag : Nat)
  | nullThrown
deriving DecidableEq, Repr

/-- Outcome classification: a JS exception, fuel exhaustion (model artifact,
never a program behaviour), or an operation applied outside its JS contract
(e.g. removing a live consumer at an out-of-range index, which in JS would
corrupt the array / throw a RangeError). -/
inductive EngineErr where
  | js (e : JsErr)
  | outOfFuel
  | invariantViolation
deriving DecidableEq, Repr

/-- The per-node equality predicate (`options.equals ?? defaultEquals`),
deeply embedded.  `isDefault` is `Object.is` (structural identity on the
modelled values); the other two model custom predicates. -/
inductive EqPred where
  | isDefault
  | alwaysTrue
  | alwaysFalse
deriving DecidableEq, Repr

/-- Evaluate an equality predicate, as `node.equal!(a, b)` does. -/
def evalEqPred : EqPred → Value → Value → Bool
  | .isDefault, a, b => a == b
  | .alwaysTrue, _, _ => true
  | .alwaysFalse, _, _ => false

/-- Which wrapper owns the node; dispatches the prototype overrides
(`producerMustRecompute`, `producerRecomputeValue`). -/
inductive NodeKind where
  | source
  | computed
  | watcher
deriving DecidableEq, Repr

/-- The `consumerMarkedDirty` callback installed on a node: the default no-op
from `REACTIVE_NODE`, or the effect scheduler watcher's notify callback which
schedules a microtask flush. -/
inductive NotifyAction where
  | noop
  | enqueueFlush
deriving DecidableEq, Repr

/-- Deep embedding of the computation closures: integer literals, signal
reads (`sig.get()`), arithmetic, a conditional (for dynamically varying
dependencies), a `throw`, and the wrapper body that `effect()` installs on
its Computed (cleanup-then-callback). -/
inductive Expr where
  | lit (n : Int)
  | getSig (id : Nat)
  | add (a b : Expr)
  | mul (a b : Expr)
  | cond (c t e : Expr)
  | throwE (tag : Nat)
  | effectBody (eid : Nat)
deriving DecidableEq, Repr

/-- The `ReactiveNode` record.  Arrays that the source leaves `undefined`
until `assertConsumerNode` / `assertProducerNode` are modelled as (initially
empty) lists, which those asserts make behaviourally identical.  The last
three fields are ghost counters (see the file header). -/
structure Node where
  version : Nat
  lastCleanEpoch : Nat
  dirty : Bool
  producerNode : List Nat
  producerLastReadVersion : List Nat
  producerIndexOfThis : List Nat
  nextProducerIndex : Nat
  liveConsumerNode : List Nat
  liveConsumerIndexOfThis : List Nat
  consumerAllowSignalWrites : Bool
  consumerIsAlwaysLive : Bool
  kind : NodeKind
  equal : EqPred
  value : Value
  computation : Option Expr
  error : Option JsErr
  markedDirtyAction : NotifyAction
  recomputeCount : Nat
  watchedCount : Nat
  unwatchedCount : Nat
deriving DecidableEq, Repr

/-- The `REACTIVE_NODE` prototype defaults. -/
def REACTIVE_NODE : Node where
  version := 0
  lastCleanEpoch := 0
  dirty := false
  producerNode := []
  producerLastReadVersion := []
  producerIndexOfThis := []
  nextProducerIndex := 0
  liveConsumerNode := []
  liveConsumerIndexOfThis := []
  consumerAllowSignalWrites := false
  consumerIsAlwaysLive := false
  kind := .source
  equal := .isDefault
  value := .undefV
  computation := none
  error := none
  markedDirtyAction := .noop
  recomputeCount := 0
  watchedCount := 0
  unwatchedCount := 0

/-- The closure state of one `effect()` registration: whether the `cleanup`
variable currently holds a function, the callback (deep-embedded body plus
whether it returns a cleanup function), and the two ghost counters. -/
structure EffectRec where
  cleanup : Bool
  cbBody : Expr
  cbReturnsCleanup : Bool
  runCount : Nat
  cleanupCount : Nat
deriving DecidableEq, Repr

/-- A default (inert) effect slot. -/
def EffectRec.default : EffectRec where
  cleanup := false
  cbBody := .lit 0
  cbReturnsCleanup := false
  runCount := 0
  cleanupCount := 0

/-- The whole mutable world: the node arena, the process-wide scheduling
context (`activeConsumer`, `inNotificationPhase`, `epoch`), the effect
scheduler globals (`needsEnqueue`, the count of queued `processPending`
microtasks) and the effect records. -/
structure EngineState where
  nodes : Nat → Node
  nextId : Nat
  activeConsumer : Option Nat
  inNotificationPhase : Bool
  epoch : Nat
  needsEnqueue : Bool
  microtasks : Nat
  effects : Nat → EffectRec
  nextEffect : Nat

/-- Point update of a `Nat`-indexed map (own definition to keep kernel
reduction and simp behaviour predictable). -/
def updFn {α : Type} (f : Nat → α) (i : Nat) (a : α) : Nat → α :=
  fun j => if j = i then a else f j

/-- Replace node `i`. -/
def setNode (st : EngineState) (i : Nat) (nd : Node) : EngineState :=
  { st with nodes := updFn st.nodes i nd }

/-- Update node `i` in place. -/
def modifyNode (st : EngineState) (i : Nat) (f : Node → Node) : EngineState :=
  setNode st i (f (st.nodes i))

/-- Update effect record `i` in place. -/
def modifyEffect (st : EngineState) (i : Nat) (f : EffectRec → EffectRec) : EngineState :=
  { st with effects := updFn st.effects i (f (st.effects i)) }

/-- Result of running an engine operation: the state is carried on both the
normal and the exceptional path (JS exceptions do not roll back mutations). -/
inductive Res (α : Type) where
  | ok (st : EngineState) (a : α)
  | err (st : EngineState) (e : EngineErr)

/-- The state a run ended in, whichever way it ended. -/
def Res.state {α : Type} : Res α → EngineState
  | .ok st _ => st
  | .err st _ => st

/-- The JS exception a run threw, if it ended by throwing one. -/
def Res.jsError {α : Type} : Res α → Option JsErr
  | .err _ (.js e) => some e
  | _ => none

/-- Whether the run returned normally. -/
def Res.isOk {α : Type} : Res α → Bool
  | .ok _ _ => true
  | _ => false

/-- JS array write `l[i] = a`.  For `i = l.length` this is the append JS
performs; writes strictly beyond the length (which in JS create a sparse
array, a situation no modelled scenario reaches) are approximated by an
append. -/
def jsWrite {α : Type} (l : List α) (i : Nat) (a : α) : List α :=
  if i < l.length then l.set i a else l ++ [a]

/-- `consumerIsLive`. -/
def consumerIsLive (nd : Node) : Bool :=
  nd.consumerIsAlwaysLive || decide (0 < nd.liveConsumerNode.length)

mutual

/-- `producerAddLiveConsumer(node, consumer, indexOfThis)`.
`assertProducerNode` / `assertConsumerNode` initialise lists that the model
keeps always present, so they are no-ops here.  On a 0 → 1 live-consumer
transition the `watched` hook point is counted and the node subscribes to its
own producers; then the consumer is pushed and its index returned. -/
def producerAddLiveConsumer (fuel : Nat) (st : EngineState)
    (nodeId consumerId indexOfThis : Nat) : Res Nat :=
  match fuel with
  | 0 => .err st .outOfFuel
  | fuel + 1 =>
    let nd := st.nodes nodeId
    if nd.liveConsumerNode.length = 0 then
      let st1 := modifyNode st nodeId fun n =>
        { n with watchedCount := n.watchedCount + 1 }
      match addLiveLoop fuel st1 nodeId 0 with
      | .err s e => .err s e
      | .ok s2 _ =>
        let r := (s2.nodes nodeId).liveConsumerNode.length
        let s3 := modifyNode s2 nodeId fun n =>
          { n with
            liveConsumerIndexOfThis := n.liveConsumerIndexOfThis ++ [indexOfThis]
            liveConsumerNode := n.liveConsumerNode ++ [consumerId] }
        .ok s3 r
    else
      let r := nd.liveConsumerNode.length
      let s3 := modifyNode st nodeId fun n =>
        { n with
          liveConsumerIndexOfThis := n.liveConsumerIndexOfThis ++ [indexOfThis]
          liveConsumerNode := n.liveConsumerNode ++ [consumerId] }
      .ok s3 r

termination_by structural fuel
/-- The subscription loop inside `producerAddLiveConsumer`:
`for i: node.producerIndexOfThis[i] = producerAddLiveConsumer(node.producerNode[i], node, i)`.
The loop condition re-reads the node's producer list from the current state,
as the JS loop does. -/
def addLiveLoop (fuel : Nat) (st : EngineState) (nodeId i : Nat) : Res Unit :=
  match fuel with
  | 0 => .err st .outOfFuel
  | fuel + 1 =>
    let nd := st.nodes nodeId
    if h : i < nd.producerNode.length then
      match producerAddLiveConsumer fuel st (nd.producerNode.get ⟨i, h⟩) nodeId i with
      | .err s e => .err s e
      | .ok s2 idx =>
        let s3 := modifyNode s2 nodeId fun n =>
          { n with producerIndexOfThis := jsWrite n.producerIndexOfThis i idx }
        addLiveLoop fuel s3 nodeId (i + 1)
    else .ok st ()

termination_by structural fuel
end

mutual

/-- `producerRemoveLiveConsumerAtIndex(node, idx)`.  On the 1 → 0 transition
the `unwatched` hook point is counted and the node unsubscribes from its own
producers; then swap-with-last removal, with the index fix-up on the moved
consumer.  An out-of-range `idx` (outside the JS contract) is flagged as
`invariantViolation`. -/
def producerRemoveLiveConsumerAtIndex (fuel : Nat) (st : EngineState)
    (nodeId idx : Nat) : Res Unit :=
  match fuel with
  | 0 => .err st .outOfFuel
  | fuel + 1 =>
    let nd := st.nodes nodeId
    match (if nd.liveConsumerNode.length = 1 then
             let st1 := modifyNode st nodeId fun n =>
               { n with unwatchedCount := n.unwatchedCount + 1 }
             removeLiveLoop fuel st1 nodeId 0
           else .ok st ()) with
    | .err s e => .err s e
    | .ok s2 _ =>
      let nd2 := s2.nodes nodeId
      if idx < nd2.liveConsumerNode.length then
        let lastIdx := nd2.liveConsumerNode.length - 1
        let lcn := (nd2.liveConsumerNode.set idx
          (nd2.liveConsumerNode.getD lastIdx 0)).dropLast
        let lci := (nd2.liveConsumerIndexOfThis.set idx
          (nd2.liveConsumerIndexOfThis.getD lastIdx 0)).dropLast
        let s3 := modifyNode s2 nodeId fun n =>
          { n with liveConsumerNode := lcn, liveConsumerIndexOfThis := lci }
        if idx < lcn.length then
          let idxProducer := lci.getD idx 0
          let consumer := lcn.getD idx 0
          let s4 := modifyNode s3 consumer fun n =>
            { n with producerIndexOfThis := jsWrite n.producerIndexOfThis idxProducer idx }
          .ok s4 ()
        else .ok s3 ()
      else .err s2 .invariantViolation

termination_by structural fuel
/-- The unsubscription loop inside `producerRemoveLiveConsumerAtIndex`:
`for i: producerRemoveLiveConsumerAtIndex(node.producerNode[i], node.producerIndexOfThis[i])`. -/
def removeLiveLoop (fuel : Nat) (st : EngineState) (nodeId i : Nat) : Res Unit :=
  match fuel with
  | 0 => .err st .outOfFuel
  | fuel + 1 =>
    let nd := st.nodes nodeId
    if i < nd.producerNode.length then
      match producerRemoveLiveConsumerAtIndex fuel st
          (nd.producerNode.getD i 0) (nd.producerIndexOfThis.getD i 0) with
      | .err s e => .err s e
      | .ok s2 _ => removeLiveLoop fuel s2 nodeId (i + 1)
    else .ok st ()

termination_by structural fuel
end

/-- `producerIncrementEpoch`. -/
def producerIncrementEpoch (st : EngineState) : EngineState :=
  { st with epoch := st.epoch + 1 }

/-- `producerAccessed(node)`: the read-registration path shared by
`State.get`, `Computed.get` and `Watcher.watch`.  Throws the reentrancy
error during the notification phase; otherwise, when an active consumer
exists, claims the consumer's next producer slot, tears down a stale live
edge occupying it, records the edge and the producer's current version, and
(for a live consumer) establishes the live-subscription edge. -/
def producerAccessed (fuel : Nat) (st : EngineState) (nodeId : Nat) : Res Unit :=
  if st.inNotificationPhase then .err st (.js .readInNotify)
  else
    match st.activeConsumer with
    | none => .ok st ()
    | some cid =>
      let c := st.nodes cid
      let idx := c.nextProducerIndex
      let st1 := modifyNode st cid fun n => { n with nextProducerIndex := idx + 1 }
      let finishRead := fun (s : EngineState) =>
        Res.ok (modifyNode s cid fun n =>
          { n with producerLastReadVersion :=
              jsWrite n.producerLastReadVersion idx ((s.nodes nodeId).version) }) ()
      let staleStep :=
        if idx < c.producerNode.length ∧ c.producerNode.getD idx 0 ≠ nodeId then
          if consumerIsLive (st1.nodes cid) then
            producerRemoveLiveConsumerAtIndex fuel st1
              (c.producerNode.getD idx 0) (c.producerIndexOfThis.getD idx 0)
          else .ok st1 ()
        else .ok st1 ()
      match staleStep with
      | .err s e => .err s e
      | .ok s2 _ =>
        if (s2.nodes cid).producerNode[idx]? ≠ some nodeId then
          let s3 := modifyNode s2 cid fun n =>
            { n with producerNode := jsWrite n.producerNode idx nodeId }
          match (if consumerIsLive (s3.nodes cid) then
                   producerAddLiveConsumer fuel s3 nodeId cid idx
                 else .ok s3 0) with
          | .err s e => .err s e
          | .ok s4 pi =>
            let s5 := modifyNode s4 cid fun n =>
              { n with producerIndexOfThis := jsWrite n.producerIndexOfThis idx pi }
            finishRead s5
        else finishRead s2

/-- `consumerBeforeComputation(node)`: reset the node's producer cursor and
install it as the active consumer, returning the previous one. -/
def consumerBeforeComputation (st : EngineState) (nodeId : Nat) :
    EngineState × Option Nat :=
  let prev := st.activeConsumer
  ({ (modifyNode st nodeId fun n => { n with nextProducerIndex := 0 }) with
      activeConsumer := some nodeId }, prev)

/-- The live-edge teardown loop inside `consumerAfterComputation`. -/
def afterCompLoop (fuel : Nat) (st : EngineState) (nodeId i : Nat) : Res Unit :=
  match fuel with
  | 0 => .err st .outOfFuel
  | fuel + 1 =>
    let nd := st.nodes nodeId
    if i < nd.producerNode.length then
      match producerRemoveLiveConsumerAtIndex fuel st
          (nd.producerNode.getD i 0) (nd.producerIndexOfThis.getD i 0) with
      | .err s e => .err s e
      | .ok s2 _ => afterCompLoop fuel s2 nodeId (i + 1)
    else .ok st ()

/-- `consumerAfterComputation(node, prevConsumer)`: restore the active
consumer, remove live edges to producers not re-read in this run
(indices from `nextProducerIndex` on), then truncate the three parallel
producer arrays down to `nextProducerIndex` (the pop loop pops each array
once per excess `producerNode` entry). -/
def consumerAfterComputation (fuel : Nat) (st : EngineState) (nodeId : Nat)
    (prevConsumer : Option Nat) : Res Unit :=
  let st0 := { st with activeConsumer := prevConsumer }
  let nd := st0.nodes nodeId
  match (if consumerIsLive nd then afterCompLoop fuel st0 nodeId nd.nextProducerIndex
         else .ok st0 ()) with
  | .err s e => .err s e
  | .ok s _ =>
    let n := s.nodes nodeId
    let k := n.producerNode.length - n.nextProducerIndex
    let s2 := modifyNode s nodeId fun m =>
      { m with
        producerNode := m.producerNode.take m.nextProducerIndex
        producerLastReadVersion :=
          m.producerLastReadVersion.take (m.producerLastReadVersion.length - k)
        producerIndexOfThis :=
          m.producerIndexOfThis.take (m.producerIndexOfThis.length - k) }
    .ok s2 ()

mutual

/-- `producerNotifyConsumers(node)`: enter the notification phase, mark each
not-yet-dirty live consumer dirty (recursively), restore the phase flag (the
source's `try`/`finally` restores it on every exit path).  A node whose
`liveConsumerNode` is still `undefined` returns early in the source; with the
always-present empty list the loop body never runs, which is observably
identical. -/
def producerNotifyConsumers (fuel : Nat) (st : EngineState) (nodeId : Nat) : Res Unit :=
  match fuel with
  | 0 => .err st .outOfFuel
  | fuel + 1 =>
    let prev := st.inNotificationPhase
    let st1 := { st with inNotificationPhase := true }
    match notifyLoop fuel st1 ((st1.nodes nodeId).liveConsumerNode) with
    | .ok s _ => .ok { s with inNotificationPhase := prev } ()
    | .err s e => .err { s with inNotificationPhase := prev } e

termination_by structural fuel
/-- The consumer loop of `producerNotifyConsumers` (the callbacks reachable
in this codebase never mutate adjacency lists, so iterating the entry
snapshot matches the JS `for...of`). -/
def notifyLoop (fuel : Nat) (st : EngineState) (consumers : List Nat) : Res Unit :=
  match fuel with
  | 0 => .err st .outOfFuel
  | fuel + 1 =>
    match consumers with
    | [] => .ok st ()
    | c :: rest =>
      if (st.nodes c).dirty then notifyLoop fuel st rest
      else
        match consumerMarkDirty fuel st c with
        | .err s e => .err s e
        | .ok s _ => notifyLoop fuel s rest

termination_by structural fuel
/-- `consumerMarkDirty(node)`: set `dirty`, propagate to the node's own live
consumers, then invoke its `consumerMarkedDirty` hook (the effect scheduler's
watcher uses it to coalesce a microtask flush behind `needsEnqueue`). -/
def consumerMarkDirty (fuel : Nat) (st : EngineState) (nodeId : Nat) : Res Unit :=
  match fuel with
  | 0 => .err st .outOfFuel
  | fuel + 1 =>
    let st1 := modifyNode st nodeId fun n => { n with dirty := true }
    match producerNotifyConsumers fuel st1 nodeId with
    | .err s e => .err s e
    | .ok s _ =>
      match (s.nodes nodeId).markedDirtyAction with
      | .noop => .ok s ()
      | .enqueueFlush =>
        if s.needsEnqueue then
          .ok { s with needsEnqueue := false, microtasks := s.microtasks + 1 } ()
        else .ok s ()

termination_by structural fuel
end

/-- `State.prototype.set(newValue)`. -/
def stateSet (fuel : Nat) (st : EngineState) (nodeId : Nat) (v : Value) : Res Unit :=
  if st.inNotificationPhase then .err st (.js .writeInNotify)
  else
    let nd := st.nodes nodeId
    if evalEqPred nd.equal nd.value v then .ok st ()
    else
      let st1 := modifyNode st nodeId fun n =>
        { n with value := v, version := n.version + 1 }
      let st2 := producerIncrementEpoch st1
      producerNotifyConsumers fuel st2 nodeId

/-- `State.prototype.get()`. -/
def stateGet (fuel : Nat) (st : EngineState) (nodeId : Nat) : Res Value :=
  match producerAccessed fuel st nodeId with
  | .err s e => .err s e
  | .ok s _ => .ok s ((s.nodes nodeId).value)

/-- `producerMustRecompute`: the `Computed` override checks for the
`UNSET`/`COMPUTING` sentinels; every other node keeps the prototype's
constant-false. -/
def producerMustRecompute (nd : Node) : Bool :=
  match nd.kind with
  | .computed => nd.value == .unset || nd.value == .computing
  | _ => false

/-- JS numeric addition restricted to the modelled values (modelled programs
only add numbers). -/
def valueAdd : Value → Value → Value
  | .int a, .int b => .int (a + b)
  | _, _ => .undefV

/-- JS numeric multiplication restricted to the modelled values. -/
def valueMul : Value → Value → Value
  | .int a, .int b => .int (a * b)
  | _, _ => .undefV

/-- JS truthiness of the values a `get()` can return (numbers and
`undefined`). -/
def truthy : Value → Bool
  | .int n => n != 0
  | _ => false

mutual

/-- `producerUpdateValueVersion(node)`: the pull-based freshness check.
Fresh (`!dirty && lastCleanEpoch === epoch`) returns untouched; otherwise,
unless the node must unconditionally recompute, a poll of the producers'
versions decides between marking clean without recomputation and
recomputing; either way the node ends not-dirty with `lastCleanEpoch`
stamped to the current epoch. -/
def producerUpdateValueVersion (fuel : Nat) (st : EngineState) (nodeId : Nat) : Res Unit :=
  match fuel with
  | 0 => .err st .outOfFuel
  | fuel + 1 =>
    let nd := st.nodes nodeId
    if ¬ nd.dirty ∧ nd.lastCleanEpoch = st.epoch then .ok st ()
    else
      match (if producerMustRecompute nd then .ok st true
             else consumerPollProducersForChange fuel st nodeId) with
      | .err s e => .err s e
      | .ok s false =>
        .ok (modifyNode s nodeId fun n =>
          { n with dirty := false, lastCleanEpoch := s.epoch }) ()
      | .ok s true =>
        match producerRecomputeValue fuel s nodeId with
        | .err s2 e => .err s2 e
        | .ok s2 _ =>
          .ok (modifyNode s2 nodeId fun n =>
            { n with dirty := false, lastCleanEpoch := s2.epoch }) ()

termination_by structural fuel
/-- `consumerPollProducersForChange(node)`. -/
def consumerPollProducersForChange (fuel : Nat) (st : EngineState) (nodeId : Nat) :
    Res Bool :=
  match fuel with
  | 0 => .err st .outOfFuel
  | fuel + 1 => pollLoop fuel st nodeId 0

termination_by structural fuel
/-- The loop of `consumerPollProducersForChange`: a producer whose version
differs from the version recorded at last read means "changed"; otherwise
the producer is recursively refreshed and its version compared again (the
comparison is `seenVersion !== producer.version`, where a missing recorded
entry reads as `undefined` and so always differs). -/
def pollLoop (fuel : Nat) (st : EngineState) (nodeId i : Nat) : Res Bool :=
  match fuel with
  | 0 => .err st .outOfFuel
  | fuel + 1 =>
    let nd := st.nodes nodeId
    if h : i < nd.producerNode.length then
      let producer := nd.producerNode.get ⟨i, h⟩
      let seen := nd.producerLastReadVersion[i]?
      if seen ≠ some ((st.nodes producer).version) then .ok st true
      else
        match producerUpdateValueVersion fuel st producer with
        | .err s e => .err s e
        | .ok s _ =>
          if seen ≠ some ((s.nodes producer).version) then .ok s true
          else pollLoop fuel s nodeId (i + 1)
    else .ok st false

termination_by structural fuel
/-- The `Computed` override of `producerRecomputeValue` (the prototype
default for sources and watchers is a no-op).  A recomputation entered while
the value is the `COMPUTING` sentinel throws the cycle error.  Otherwise the
value is set to `COMPUTING`, the node becomes the active consumer, the
computation runs (ghost `recomputeCount` incremented at the invocation); on
success an equality check against the previous (real) value decides between
keeping the old value without a version bump and storing the new value with
one; on a JS exception the error object is cached, the value becomes
`ERRORED`, and the version is bumped.  `consumerAfterComputation` runs on
both paths (the source's `finally`); the model-artifact outcomes
(`outOfFuel` / `invariantViolation`) propagate directly. -/
def producerRecomputeValue (fuel : Nat) (st : EngineState) (nodeId : Nat) : Res Unit :=
  match fuel with
  | 0 => .err st .outOfFuel
  | fuel + 1 =>
    let nd := st.nodes nodeId
    match nd.kind with
    | .source => .ok st ()
    | .watcher => .ok st ()
    | .computed =>
      if nd.value = .computing then .err st (.js .cycle)
      else
        let oldValue := nd.value
        let st1 := modifyNode st nodeId fun n => { n with value := .computing }
        let pre := consumerBeforeComputation st1 nodeId
        let st2 := pre.1
        let prevConsumer := pre.2
        let st3 := modifyNode st2 nodeId fun n =>
          { n with recomputeCount := n.recomputeCount + 1 }
        match nd.computation with
        | none => .err st3 .invariantViolation
        | some body =>
          match evalExpr fuel st3 body with
          | .ok s v =>
            match consumerAfterComputation fuel s nodeId prevConsumer with
            | .err s2 e => .err s2 e
            | .ok s2 _ =>
              if oldValue ≠ .unset ∧ oldValue ≠ .errored ∧ evalEqPred nd.equal oldValue v then
                .ok (modifyNode s2 nodeId fun n => { n with value := oldValue }) ()
              else
                .ok (modifyNode s2 nodeId fun n =>
                  { n with value := v, version := n.version + 1 }) ()
          | .err s (.js e) =>
            let s1 := modifyNode s nodeId fun n => { n with error := some e }
            match consumerAfterComputation fuel s1 nodeId prevConsumer with
            | .err s2 e2 => .err s2 e2
            | .ok s2 _ =>
              .ok (modifyNode s2 nodeId fun n =>
                { n with value := .errored, version := n.version + 1 }) ()
          | .err s e => .err s e

termination_by structural fuel
/-- Evaluation of the deep-embedded computation bodies.  Signal reads go
through the engine's own `get()` paths; the `effectBody` case is the wrapper
closure `effect()` builds (invoke the stored cleanup if any, then the
callback, then store whether a new cleanup was returned; on a callback
throw the `cleanup` variable keeps its old value). -/
def evalExpr (fuel : Nat) (st : EngineState) (e : Expr) : Res Value :=
  match fuel with
  | 0 => .err st .outOfFuel
  | fuel + 1 =>
    match e with
    | .lit n => .ok st (.int n)
    | .getSig id => signalGet fuel st id
    | .add a b =>
      match evalExpr fuel st a with
      | .err s er => .err s er
      | .ok s va =>
        match evalExpr fuel s b with
        | .err s2 er => .err s2 er
        | .ok s2 vb => .ok s2 (valueAdd va vb)
    | .mul a b =>
      match evalExpr fuel st a with
      | .err s er => .err s er
      | .ok s va =>
        match evalExpr fuel s b with
        | .err s2 er => .err s2 er
        | .ok s2 vb => .ok s2 (valueMul va vb)
    | .cond c t f =>
      match evalExpr fuel st c with
      | .err s er => .err s er
      | .ok s vc => if truthy vc then evalExpr fuel s t else evalExpr fuel s f
    | .throwE tag => .err st (.js (.userErr tag))
    | .effectBody eid =>
      let r := st.effects eid
      let st1 :=
        if r.cleanup then
          modifyEffect st eid fun x => { x with cleanupCount := x.cleanupCount + 1 }
        else st
      let st2 := modifyEffect st1 eid fun x => { x with runCount := x.runCount + 1 }
      match evalExpr fuel st2 r.cbBody with
      | .err s er => .err s er
      | .ok s _ =>
        .ok (modifyEffect s eid fun x => { x with cleanup := r.cbReturnsCleanup }) .undefV

termination_by structural fuel
/-- `Computed.prototype.get()`: refresh, register with the active consumer,
then re-raise the cached error (an `ERRORED` value throws whatever the error
slot holds) or return the cached value. -/
def computedGet (fuel : Nat) (st : EngineState) (nodeId : Nat) : Res Value :=
  match fuel with
  | 0 => .err st .outOfFuel
  | fuel + 1 =>
    match producerUpdateValueVersion fuel st nodeId with
    | .err s e => .err s e
    | .ok s _ =>
      match producerAccessed fuel s nodeId with
      | .err s2 e => .err s2 e
      | .ok s2 _ =>
        let nd := s2.nodes nodeId
        if nd.value = .errored then
          .err s2 (.js (match nd.error with | some e => e | none => .nullThrown))
        else .ok s2 nd.value

termination_by structural fuel
/-- A `sig.get()` inside a computation, dispatched on what the signal is
(watchers expose no `get`). -/
def signalGet (fuel : Nat) (st : EngineState) (nodeId : Nat) : Res Value :=
  match fuel with
  | 0 => .err st .outOfFuel
  | fuel + 1 =>
    match (st.nodes nodeId).kind with
    | .source => stateGet fuel st nodeId
    | .computed => computedGet fuel st nodeId
    | .watcher => .err st .invariantViolation

termination_by structural fuel
end

/-- The signal-read loop of `Watcher.prototype.watch` (the private
`#signals` set is book-keeping that no behaviour ever reads; it is omitted). -/
def watchLoop (fuel : Nat) (st : EngineState) (signals : List Nat) : Res Unit :=
  match signals with
  | [] => .ok st ()
  | s :: rest =>
    match producerAccessed fuel st s with
    | .err s2 e => .err s2 e
    | .ok s2 _ => watchLoop fuel s2 rest

/-- `Watcher.prototype.watch(...signals)`: clear the watcher's dirty flag,
become the active consumer, read each given signal, restore the previous
consumer.  (There is no `try`/`finally` in the source: a throwing read
leaves the watcher installed as active consumer, and the model propagates
likewise.) -/
def watcherWatch (fuel : Nat) (st : EngineState) (wid : Nat) (signals : List Nat) :
    Res Unit :=
  let st1 := modifyNode st wid fun n => { n with dirty := false }
  let prev := st1.activeConsumer
  let st2 := { st1 with activeConsumer := some wid }
  match watchLoop fuel st2 signals with
  | .err s e => .err s e
  | .ok s _ => .ok { s with activeConsumer := prev } ()

/-- The downward loop of `Watcher.prototype.unwatch`; `i + 1` is the current
JS loop index plus one (so `0` terminates).  For a producer entry matching
one of the given signals: remove the live edge, swap-with-last both
`producerNode` and `producerIndexOfThis` (the version array is not
touched), and fix up the moved producer's back index. -/
def unwatchLoop (fuel : Nat) (st : EngineState) (wid : Nat) (signals : List Nat)
    (i : Nat) : Res Unit :=
  match i with
  | 0 => .ok st ()
  | i + 1 =>
    let nd := st.nodes wid
    if i < nd.producerNode.length ∧ nd.producerNode.getD i 0 ∈ signals then
      match producerRemoveLiveConsumerAtIndex fuel st
          (nd.producerNode.getD i 0) (nd.producerIndexOfThis.getD i 0) with
      | .err s e => .err s e
      | .ok s _ =>
        let n2 := s.nodes wid
        let lastIdx := n2.producerNode.length - 1
        let pn := (n2.producerNode.set i (n2.producerNode.getD lastIdx 0)).dropLast
        let pio := (n2.producerIndexOfThis.set i
          (n2.producerIndexOfThis.getD lastIdx 0)).dropLast
        let s2 := modifyNode s wid fun n =>
          { n with producerNode := pn, producerIndexOfThis := pio }
        let s3 :=
          if i < pn.length then
            modifyNode s2 (pn.getD i 0) fun n =>
              { n with liveConsumerIndexOfThis :=
                  jsWrite n.liveConsumerIndexOfThis (pio.getD i 0) i }
          else s2
        unwatchLoop fuel s3 wid signals i
    else unwatchLoop fuel st wid signals i

/-- `Watcher.prototype.unwatch(...signals)`. -/
def watcherUnwatch (fuel : Nat) (st : EngineState) (wid : Nat)
    (signals : List Nat) : Res Unit :=
  unwatchLoop fuel st wid signals ((st.nodes wid).producerNode.length)

/-- `Watcher.prototype.getPending()`: the tracked producers that are dirty
and carry a computation. -/
def getPending (st : EngineState) (wid : Nat) : List Nat :=
  (st.nodes wid).producerNode.filter fun n =>
    (st.nodes n).dirty && (st.nodes n).computation.isSome

/-- The node built by `new State(initialValue, options)`. -/
def mkStateNode (v : Value) (eq : EqPred) : Node :=
  { REACTIVE_NODE with value := v, equal := eq, version := 0, kind := .source }

/-- The node built by `new Computed(computation, options)`. -/
def mkComputedNode (comp : Expr) (eq : EqPred) : Node :=
  { REACTIVE_NODE with
    computation := some comp
    value := .unset
    dirty := true
    error := none
    equal := eq
    consumerAllowSignalWrites := true
    kind := .computed }

/-- The node built by `new Watcher(notify)`. -/
def mkWatcherNode (action : NotifyAction) : Node :=
  { REACTIVE_NODE with
    markedDirtyAction := action
    consumerIsAlwaysLive := true
    consumerAllowSignalWrites := false
    producerNode := []
    kind := .watcher }

/-- The module-global watcher of `src/effect.ts` lives at a fixed arena slot
in the modelled scenarios. -/
def effectWatcherId : Nat := 0

/-- The `computed.get()` loop of `processPending` (the pending list is taken
once, as `for (const computed of watcher.getPending())` does). -/
def pendingLoop (fuel : Nat) (st : EngineState) (l : List Nat) : Res Unit :=
  match l with
  | [] => .ok st ()
  | c :: rest =>
    match computedGet fuel st c with
    | .err s e => .err s e
    | .ok s _ => pendingLoop fuel s rest

/-- `processPending()`: re-arm `needsEnqueue`, reset the watcher's dirty
flag via an argument-less `watch()`, `get()` every pending computed, then
reset the dirty flag again. -/
def processPending (fuel : Nat) (st : EngineState) : Res Unit :=
  let st0 := { st with needsEnqueue := true }
  match watcherWatch fuel st0 effectWatcherId [] with
  | .err s e => .err s e
  | .ok s _ =>
    match pendingLoop fuel s (getPending s effectWatcherId) with
    | .err s2 e => .err s2 e
    | .ok s2 _ => watcherWatch fuel s2 effectWatcherId []

/-- Run one queued microtask, if any: the scheduler's `queueMicrotask(processPending)`
callbacks drain in order, and each queued one runs `processPending` once. -/
def drainOneMicrotask (fuel : Nat) (st : EngineState) : Res Unit :=
  if 0 < st.microtasks then processPending fuel { st with microtasks := st.microtasks - 1 }
  else .ok st ()

/-- `effect(callback)`: allocate the closure state and the wrapping
Computed, register the Computed with the shared watcher, evaluate it once
synchronously, and return (the data captured by) the disposer. -/
def effectCreate (fuel : Nat) (st : EngineState) (cbBody : Expr)
    (returnsCleanup : Bool) : Res (Nat × Nat) :=
  let eid := st.nextEffect
  let st1 := { st with
    effects := updFn st.effects eid
      { cleanup := false, cbBody := cbBody, cbReturnsCleanup := returnsCleanup
        runCount := 0, cleanupCount := 0 }
    nextEffect := eid + 1 }
  let cid := st1.nextId
  let st2 := { st1 with
    nodes := updFn st1.nodes cid (mkComputedNode (.effectBody eid) .isDefault)
    nextId := cid + 1 }
  match watcherWatch fuel st2 effectWatcherId [cid] with
  | .err s e => .err s e
  | .ok s _ =>
    match computedGet fuel s cid with
    | .err s2 e => .err s2 e
    | .ok s2 _ => .ok s2 (cid, eid)

/-- The disposer returned by `effect()`: unwatch the wrapping Computed, then
invoke the stored cleanup if the `cleanup` variable holds one.  The variable
is not cleared — exactly as in the source. -/
def effectDispose (fuel : Nat) (st : EngineState) (cid eid : Nat) : Res Unit :=
  match watcherUnwatch fuel st effectWatcherId [cid] with
  | .err s e => .err s e
  | .ok s _ =>
    if (s.effects eid).cleanup then
      .ok (modifyEffect s eid fun r => { r with cleanupCount := r.cleanupCount + 1 }) ()
    else .ok s ()

/-- The value a run returned, if it returned normally. -/
def Res.okValue {α : Type} : Res α → Option α
  | .ok _ a => some a
  | _ => none

/-- The initial world: empty arena, no active consumer, not notifying,
`epoch = 1`, `needsEnqueue = true`, nothing queued (the module-level initial
values of `src/signals.ts` and `src/effect.ts`). -/
def emptyState : EngineState where
  nodes := fun _ => REACTIVE_NODE
  nextId := 0
  activeConsumer := none
  inNotificationPhase := false
  epoch := 1
  needsEnqueue := true
  microtasks := 0
  effects := fun _ => EffectRec.default
  nextEffect := 0

/-- Allocate a node at the next arena slot (`new State` / `new Computed` /
`new Watcher`). -/
def allocNode (st : EngineState) (nd : Node) : EngineState × Nat :=
  ({ st with nodes := updFn st.nodes st.nextId nd, nextId := st.nextId + 1 }, st.nextId)

/-- Diamond scenario (§8 of the spec): `a = State(1)` at slot 0,
`b = Computed(() => a.get() + 1)` at 1, `c = Computed(() => a.get() * 2)`
at 2, `d = Computed(() => b.get() + c.get())` at 3. -/
def diamondInit : EngineState :=
  (allocNode
    (allocNode
      (allocNode
        (allocNode emptyState (mkStateNode (.int 1) .isDefault)).1
        (mkComputedNode (.add (.getSig 0) (.lit 1)) .isDefault)).1
      (mkComputedNode (.mul (.getSig 0) (.lit 2)) .isDefault)).1
    (mkComputedNode (.add (.getSig 1) (.getSig 2)) .isDefault)).1

/-- First `d.get()` of the diamond scenario. -/
def diamondRun1 : Res Value := computedGet 64 diamondInit 3

/-- Then `a.set(5)` (a value-changing write). -/
def diamondRun2 : Res Unit := stateSet 64 diamondRun1.state 0 (.int 5)

/-- Then the second `d.get()`. -/
def diamondRun3 : Res Value := computedGet 64 diamondRun2.state 3

/-- Memoization scenario (§8): `a = State(3)` at 0, an unrelated
`u = State(0)` at 1, `m = Computed(() => a.get() * a.get())` at 2. -/
def memoInit : EngineState :=
  (allocNode
    (allocNode
      (allocNode emptyState (mkStateNode (.int 3) .isDefault)).1
      (mkStateNode (.int 0) .isDefault)).1
    (mkComputedNode (.mul (.getSig 0) (.getSig 0)) .isDefault)).1

/-- First `m.get()` (computes once). -/
def memoRun1 : Res Value := computedGet 64 memoInit 2

/-- Second `m.get()` (fresh: the `!dirty && lastCleanEpoch === epoch` fast
path). -/
def memoRun2 : Res Value := computedGet 64 memoRun1.state 2

/-- An unrelated write `u.set(7)` that advances the epoch. -/
def memoRun3 : Res Unit := stateSet 64 memoRun2.state 1 (.int 7)

/-- Third `m.get()` (stale epoch: the producer-version poll finds no
change). -/
def memoRun4 : Res Value := computedGet 64 memoRun3.state 2

/-- Cycle scenario (§8): `a = Computed(() => a.get() + 1)` at slot 0. -/
def cycleInit : EngineState :=
  (allocNode emptyState (mkComputedNode (.add (.getSig 0) (.lit 1)) .isDefault)).1

/-- First `a.get()`. -/
def cycleRun1 : Res Value := computedGet 64 cycleInit 0

/-- Second `a.get()`. -/
def cycleRun2 : Res Value := computedGet 64 cycleRun1.state 0

/-- Error-caching scenario (§8): `s = State(1)` at 0 and
`t = Computed(() => s.get() ? throwErr7() : 42)` at 1. -/
def errInit : EngineState :=
  (allocNode
    (allocNode emptyState (mkStateNode (.int 1) .isDefault)).1
    (mkComputedNode (.cond (.getSig 0) (.throwE 7) (.lit 42)) .isDefault)).1

/-- First `t.get()` (throws, caches the error). -/
def errRun1 : Res Value := computedGet 64 errInit 1

/-- Second `t.get()` (re-raises the cached error without recomputing). -/
def errRun2 : Res Value := computedGet 64 errRun1.state 1

/-- `s.set(2)` — a producer change that still leads into the throwing
branch. -/
def errRun3 : Res Unit := stateSet 64 errRun2.state 0 (.int 2)

/-- Third `t.get()` (recomputes, throws again, bumps the version again). -/
def errRun4 : Res Value := computedGet 64 errRun3.state 1

/-- `s.set(0)` — now the computation will succeed. -/
def errRun5 : Res Unit := stateSet 64 errRun4.state 0 (.int 0)

/-- Fourth `t.get()` (recovers with a value; the version bumps even though
the error-to-value transition has no previous real value to compare). -/
def errRun6 : Res Value := computedGet 64 errRun5.state 1

/-- Dynamic-dependency scenario (§8): `flag = State(1)` at 0,
`x = State(10)` at 1, `y = State(20)` at 2,
`m = Computed(() => flag.get() ? x.get() : y.get())` at 3, and a plain
watcher at 4 that keeps `m` live. -/
def dynInit : EngineState :=
  (allocNode
    (allocNode
      (allocNode
        (allocNode
          (allocNode emptyState (mkStateNode (.int 1) .isDefault)).1
          (mkStateNode (.int 10) .isDefault)).1
        (mkStateNode (.int 20) .isDefault)).1
      (mkComputedNode (.cond (.getSig 0) (.getSig 1) (.getSig 2)) .isDefault)).1
    (mkWatcherNode .noop)).1

/-- `w.watch(m)` (makes `m` live). -/
def dynRun1 : Res Unit := watcherWatch 64 dynInit 4 [3]

/-- `m.get()` — reads `flag` then `x`. -/
def dynRun2 : Res Value := computedGet 64 dynRun1.state 3

/-- `flag.set(0)` — flips the branch and dirties `m` through the live
edge. -/
def dynRun3 : Res Unit := stateSet 64 dynRun2.state 0 (.int 0)

/-- `m.get()` — recomputes reading `flag` then `y`; the stale edge to `x`
is removed and its live subscription torn down. -/
def dynRun4 : Res Value := computedGet 64 dynRun3.state 3

/-- `x.set(99)` — a change to the no-longer-read branch. -/
def dynRun5 : Res Unit := stateSet 64 dynRun4.state 1 (.int 99)

/-- `m.get()` — must not recompute. -/
def dynRun6 : Res Value := computedGet 64 dynRun5.state 3

/-- Effect scenario: the shared scheduler watcher at slot 0 (its notify
callback queues a flush), `s = State(1)` at 1; then
`dispose = effect(() => { s.get(); return cleanup; })` creates effect 0
wrapped by the Computed at slot 2. -/
def effInit : EngineState :=
  (allocNode
    (allocNode emptyState (mkWatcherNode .enqueueFlush)).1
    (mkStateNode (.int 1) .isDefault)).1

/-- `effect(callback)` with a callback that reads `s` and returns a cleanup
function. -/
def effRun1 : Res (Nat × Nat) := effectCreate 64 effInit (.getSig 1) true

/-- `dispose()`. -/
def effRun2 : Res Unit := effectDispose 64 effRun1.state 2 0

/-- `dispose()` again (the repeated-disposer case). -/
def effRun3 : Res Unit := effectDispose 64 effRun2.state 2 0

/-- After the (single) dispose: `s.set(5)`. -/
def effRun4 : Res Unit := stateSet 64 effRun2.state 1 (.int 5)

/-- ... and a microtask drain. -/
def effRun5 : Res Unit := drainOneMicrotask 64 effRun4.state

/-- Control run (no dispose): `s.set(5)` right after creation ... -/
def effLiveRun1 : Res Unit := stateSet 64 effRun1.state 1 (.int 5)

/-- ... then the microtask flush re-runs the effect body once, invoking the
previous cleanup first. -/
def effLiveRun2 : Res Unit := drainOneMicrotask 64 effLiveRun1.state

/-- A strict rank witness for producer edges: every producer of a node ranks
strictly below the node.  Every graph the engine actually builds admits one
(producer edges are recorded while the producer finished reading before the
consumer), and it rules out the malformed cyclic arenas on which the
subscription recursion would diverge. -/
def RankedProducers (st : EngineState) (rank : Nat → Nat) : Prop :=
  ∀ id p, p ∈ (st.nodes id).producerNode → rank p < rank id

/-- One where a zero-to-nonzero live-consumer transition happened, else
zero: the number of times the `watched` hook point must fire across that
transition. -/
def watchedDelta (a b : Nat) : Nat :=
  if a = 0 ∧ 0 < b then 1 else 0

/-- One where a nonzero-to-zero live-consumer transition happened, else
zero. -/
def unwatchedDelta (a b : Nat) : Nat :=
  if 0 < a ∧ b = 0 then 1 else 0

/-- A state inside the push-notification phase holding a stale Computed
(as arises when a watcher's notify callback runs while `inNotificationPhase`
is still set): slot 0 is `Computed(() => 42)`, never yet computed. -/
def reentrInit : EngineState :=
  { (allocNode emptyState (mkComputedNode (.lit 42) .isDefault)).1 with
      inNotificationPhase := true }

/-- A `get()` on that Computed from inside the notification phase. -/
def reentrRun : Res Value := computedGet 64 reentrInit 0

/-- A state inside the notification phase holding a source (slot 0) and a
fresh (clean, epoch-current) Computed (slot 1), for the amended reentrancy
claim. -/
def reentrFreshInit : EngineState :=
  { emptyState with
    nodes := updFn (updFn emptyState.nodes
      0 (mkStateNode (.int 1) .isDefault))
      1 { mkComputedNode (.lit 5) .isDefault with
            dirty := false, lastCleanEpoch := 1, value := .int 5 }
    nextId := 2
    inNotificationPhase := true }

/-- A fresh Computed caching an error (`ERRORED` value, exception tag 3,
version 5), used to witness dependency registration on an error re-raise. -/
def errCachedNode : Node :=
  { mkComputedNode (.lit 0) .isDefault with
      dirty := false, lastCleanEpoch := 1, value := .errored
      error := some (.userErr 3), version := 5 }

/-- A consumer mid-computation (installed as the active consumer, producer
cursor at the end of its — empty — producer list), not live. -/
def midCompConsumer : Node := mkComputedNode (.lit 0) .isDefault

/-- World for the non-live part of the registration-on-error witness: the
erroring Computed at 0, the active consumer at 1. -/
def errCachedInit : EngineState :=
  { emptyState with
    nodes := updFn (updFn emptyState.nodes 0 errCachedNode) 1 midCompConsumer
    nextId := 2
    activeConsumer := some 1 }

/-- World for the live part: as `errCachedInit`, but the erroring Computed
already has a live consumer (slot 2) and the active consumer is always-live
(a watcher-like consumer). -/
def errCachedLiveInit : EngineState :=
  { emptyState with
    nodes := updFn (updFn (updFn emptyState.nodes
      0 { errCachedNode with liveConsumerNode := [2], liveConsumerIndexOfThis := [0] })
      1 { midCompConsumer with consumerIsAlwaysLive := true })
      2 REACTIVE_NODE
    nextId := 3
    activeConsumer := some 1 }

/-- Witness world for the lifecycle claim: a source at 0 and a node at 1
whose producer list is `[0]` (as after a computation that read slot 0),
neither live yet. -/
def lifecycleInit : EngineState :=
  { emptyState with
    nodes := updFn (updFn emptyState.nodes
      0 (mkStateNode (.int 1) .isDefault))
      1 { mkComputedNode (.getSig 0) .isDefault with
            producerNode := [0], producerLastReadVersion := [0]
            producerIndexOfThis := [0], nextProducerIndex := 1 }
    nextId := 2 }

/-- Subscribing consumer 9 to node 1 in that world (node 1 goes live and in
turn subscribes to node 0). -/
def lifecycleAdd : Res Nat := producerAddLiveConsumer 16 lifecycleInit 1 9 0

/-- Then removing that subscription again (node 1 drops to zero live
consumers and unsubscribes from node 0). -/
def lifecycleRemove : Res Unit :=
  producerRemoveLiveConsumerAtIndex 16 lifecycleAdd.state 1 0

/-- The events the world can throw at a disposed effect: source writes and
microtask drains. -/
inductive EffCmd where
  | write (sid : Nat) (v : Value)
  | drain
deriving DecidableEq, Repr

/-- Run a sequence of such events (stopping at a thrown error, which keeps
its state). -/
def runCmds (fuel : Nat) (st : EngineState) : List EffCmd → Res Unit
  | [] => .ok st ()
  | c :: rest =>
    match (match c with
           | .write sid v => stateSet fuel st sid v
           | .drain => drainOneMicrotask fuel st) with
    | .err s e => .err s e
    | .ok s _ => runCmds fuel s rest

/-- Two nodes that differ at most in the `dirty` flag (all push propagation
is allowed to change on a node). -/
def dirtyOnly (a b : Node) : Prop :=
  b = { a with dirty := b.dirty }

/-- What push propagation leaves untouched: every global except the
notification flag and the scheduler's coalescing fields, and every node up
to its `dirty` flag. -/
def NotifyFrame (st stB : EngineState) : Prop :=
  stB.epoch = st.epoch ∧
  stB.activeConsumer = st.activeConsumer ∧
  stB.effects = st.effects ∧
  stB.nextId = st.nextId ∧
  stB.nextEffect = st.nextEffect ∧
  ∀ id, dirtyOnly (st.nodes id) (stB.nodes id)

/-- The live-list and hook-counter fields of a node (what the
subscription machinery is allowed to change only below a given rank). -/
def coreEq (a b : Node) : Prop :=
  b.liveConsumerNode = a.liveConsumerNode ∧
  b.watchedCount = a.watchedCount ∧
  b.unwatchedCount = a.unwatchedCount

/-- What one `producerAddLiveConsumer` call does to the world, relative to
a rank bound `b` (the rank of the called node): producer edges are
untouched, live-consumer lists only grow (by appending), the `watched` hook
point fires exactly once per zero-to-nonzero live transition, the
`unwatched` hook point never fires, and nodes ranked strictly above `b` are
untouched. -/
def AddInv (rank : Nat → Nat) (b : Nat) (st stB : EngineState) : Prop :=
  (∀ id, (stB.nodes id).producerNode = (st.nodes id).producerNode) ∧
  (∀ id, ∃ t, (stB.nodes id).liveConsumerNode = (st.nodes id).liveConsumerNode ++ t) ∧
  (∀ id, (stB.nodes id).watchedCount = (st.nodes id).watchedCount +
     watchedDelta (st.nodes id).liveConsumerNode.length (stB.nodes id).liveConsumerNode.length) ∧
  (∀ id, (stB.nodes id).unwatchedCount = (st.nodes id).unwatchedCount) ∧
  (∀ id, b < rank id → stB.nodes id = st.nodes id)

/-- What one `producerRemoveLiveConsumerAtIndex` call does to the world,
relative to a rank bound: producer edges untouched, live-consumer lists
only shrink, the `unwatched` hook point fires exactly once per
nonzero-to-zero live transition, the `watched` hook point never fires, and
the live/hook-counter core of nodes ranked strictly above the bound is
untouched (their `producerIndexOfThis` may be fixed up by swap removal). -/
def RemInv (rank : Nat → Nat) (b : Nat) (st stB : EngineState) : Prop :=
  (∀ id, (stB.nodes id).producerNode = (st.nodes id).producerNode) ∧
  (∀ id, (stB.nodes id).liveConsumerNode.length ≤ (st.nodes id).liveConsumerNode.length) ∧
  (∀ id, (stB.nodes id).unwatchedCount = (st.nodes id).unwatchedCount +
     unwatchedDelta (st.nodes id).liveConsumerNode.length (stB.nodes id).liveConsumerNode.length) ∧
  (∀ id, (stB.nodes id).watchedCount = (st.nodes id).watchedCount) ∧
  (∀ id, b < rank id → coreEq (st.nodes id) (stB.nodes id))

set_option maxRecDepth 100000
set_option maxHeartbeats 4000000

theorem updFn_same {α : Type} (f : Nat → α) (i : Nat) (a : α) :
    updFn f i a i = a := by
  simp [updFn]

theorem updFn_ne {α : Type} (f : Nat → α) (i j : Nat) (a : α) (h : j ≠ i) :
    updFn f i a j = f j := by
  simp [updFn, h]

theorem dirtyOnly_rfl (a : Node) : dirtyOnly a a := rfl

theorem dirtyOnly_trans {a b c : Node} (h1 : dirtyOnly a b) (h2 : dirtyOnly b c) :
    dirtyOnly a c := by
  unfold dirtyOnly at h1 h2 ⊢
  calc c = { b with dirty := c.dirty } := h2
    _ = { { a with dirty := b.dirty } with dirty := c.dirty } := by rw [h1]
    _ = { a with dirty := c.dirty } := rfl

theorem dirtyOnly_value {a b : Node} (h : dirtyOnly a b) : b.value = a.value := by
  rw [show b = { a with dirty := b.dirty } from h]

theorem dirtyOnly_version {a b : Node} (h : dirtyOnly a b) : b.version = a.version := by
  rw [show b = { a with dirty := b.dirty } from h]

theorem dirtyOnly_producerNode {a b : Node} (h : dirtyOnly a b) :
    b.producerNode = a.producerNode := by
  rw [show b = { a with dirty := b.dirty } from h]

theorem notifyFrame_rfl (st : EngineState) : NotifyFrame st st :=
  ⟨rfl, rfl, rfl, rfl, rfl, fun _ => dirtyOnly_rfl _⟩

theorem notifyFrame_trans {a b c : EngineState} (h1 : NotifyFrame a b)
    (h2 : NotifyFrame b c) : NotifyFrame a c := by
  obtain ⟨e1, a1, f1, n1, x1, d1⟩ := h1
  obtain ⟨e2, a2, f2, n2, x2, d2⟩ := h2
  exact ⟨e2.trans e1, a2.trans a1, f2.trans f1, n2.trans n1, x2.trans x1,
    fun id => dirtyOnly_trans (d1 id) (d2 id)⟩

theorem notifyFrame_markStep (st : EngineState) (n : Nat) :
    NotifyFrame st (modifyNode st n (fun nd => { nd with dirty := true })) := by
  refine ⟨rfl, rfl, rfl, rfl, rfl, fun id => ?_⟩
  by_cases h : id = n
  · subst h
    show dirtyOnly (st.nodes id) (updFn st.nodes id _ id)
    rw [updFn_same]
    rfl
  · show dirtyOnly (st.nodes id) (updFn st.nodes n _ id)
    rw [updFn_ne _ _ _ _ h]
    exact dirtyOnly_rfl _

theorem notify_frame_all : ∀ fuel,
    (∀ st n, NotifyFrame st (producerNotifyConsumers fuel st n).state ∧
      (producerNotifyConsumers fuel st n).state.inNotificationPhase = st.inNotificationPhase) ∧
    (∀ st l, NotifyFrame st (notifyLoop fuel st l).state ∧
      (notifyLoop fuel st l).state.inNotificationPhase = st.inNotificationPhase) ∧
    (∀ st n, NotifyFrame st (consumerMarkDirty fuel st n).state ∧
      (consumerMarkDirty fuel st n).state.inNotificationPhase = st.inNotificationPhase) := by
  intro fuel
  induction fuel with
  | zero =>
    exact ⟨fun st n => ⟨notifyFrame_rfl st, rfl⟩,
           fun st l => ⟨notifyFrame_rfl st, rfl⟩,
           fun st n => ⟨notifyFrame_rfl st, rfl⟩⟩
  | succ f ih =>
    obtain ⟨ihN, ihL, ihM⟩ := ih
    refine ⟨fun st n => ?_, fun st l => ?_, fun st n => ?_⟩
    · simp only [producerNotifyConsumers]
      cases hL : notifyLoop f { st with inNotificationPhase := true }
          ((st.nodes n).liveConsumerNode) with
      | ok s a =>
        have h := ihL { st with inNotificationPhase := true }
          ((st.nodes n).liveConsumerNode)
        rw [hL] at h
        exact ⟨notifyFrame_trans (notifyFrame_rfl st) h.1, rfl⟩
      | err s e =>
        have h := ihL { st with inNotificationPhase := true }
          ((st.nodes n).liveConsumerNode)
        rw [hL] at h
        exact ⟨notifyFrame_trans (notifyFrame_rfl st) h.1, rfl⟩
    · cases l with
      | nil => exact ⟨notifyFrame_rfl st, rfl⟩
      | cons c rest =>
        simp only [notifyLoop]
        by_cases hd : (st.nodes c).dirty
        · simp only [hd, if_true]
          exact ihL st rest
        · simp only [hd, if_false]
          cases hM : consumerMarkDirty f st c with
          | ok s a =>
            have h1 := ihM st c
            rw [hM] at h1
            have h2 := ihL s rest
            exact ⟨notifyFrame_trans h1.1 h2.1, h2.2.trans h1.2⟩
          | err s e =>
            have h1 := ihM st c
            rw [hM] at h1
            exact h1
    · simp only [consumerMarkDirty]
      cases hN : producerNotifyConsumers f
          (modifyNode st n (fun nd => { nd with dirty := true })) n with
      | ok s a =>
        have h1 := ihN (modifyNode st n (fun nd => { nd with dirty := true })) n
        rw [hN] at h1
        have base := notifyFrame_trans (notifyFrame_markStep st n) h1.1
        have basePhase : s.inNotificationPhase = st.inNotificationPhase := h1.2
        dsimp only
        cases hAct : (s.nodes n).markedDirtyAction with
        | noop =>
          simp only [hAct]
          exact ⟨base, basePhase⟩
        | enqueueFlush =>
          simp only [hAct]
          by_cases hq : s.needsEnqueue
          · simp only [hq, if_true]
            exact ⟨base, basePhase⟩
          · simp only [hq, if_false]
            exact ⟨base, basePhase⟩
      | err s e =>
        have h1 := ihN (modifyNode st n (fun nd => { nd with dirty := true })) n
        rw [hN] at h1
        exact ⟨notifyFrame_trans (notifyFrame_markStep st n) h1.1, h1.2⟩

/-- C3: Equality-suppressed write — when `equal(current, newValue)` holds
(whatever the node's equality predicate is) and the engine is not notifying,
`set(newValue)` returns with the entire engine state unchanged (no value
assignment, no version bump, no epoch increment, no consumer dirtied or
notified); when it does not hold, a completed `set` stores the value,
increments the node's version by exactly one, and increments the global
epoch exactly once. -/
theorem C3_equality_suppressed_write :
    ∀ fuel st sid v, st.inNotificationPhase = false →
      (evalEqPred (st.nodes sid).equal (st.nodes sid).value v = true →
        stateSet fuel st sid v = .ok st ()) ∧
      (evalEqPred (st.nodes sid).equal (st.nodes sid).value v = false →
        (stateSet fuel st sid v).isOk = true →
        ((stateSet fuel st sid v).state.nodes sid).value = v ∧
        ((stateSet fuel st sid v).state.nodes sid).version = (st.nodes sid).version + 1 ∧
        (stateSet fuel st sid v).state.epoch = st.epoch + 1) := by
  intro fuel st sid v hphase
  constructor
  · intro heq
    simp [stateSet, hphase, heq]
  · intro heq
    simp only [stateSet, hphase, heq, Bool.false_eq_true, if_false]
    intro hok
    cases hN : producerNotifyConsumers fuel
        (producerIncrementEpoch (modifyNode st sid fun n =>
          { n with value := v, version := n.version + 1 })) sid with
    | ok s a =>
      have h := ((notify_frame_all fuel).1 (producerIncrementEpoch (modifyNode st sid fun n =>
          { n with value := v, version := n.version + 1 })) sid).1
      rw [hN] at h
      obtain ⟨hep, hac, hef, hni, hne, hdo⟩ := h
      have hdn := hdo sid
      refine ⟨?_, ?_, ?_⟩
      · rw [dirtyOnly_value hdn]
        simp [producerIncrementEpoch, modifyNode, setNode, updFn]
      · rw [dirtyOnly_version hdn]
        simp [producerIncrementEpoch, modifyNode, setNode, updFn]
      · rw [hep]
        rfl
    | err s e =>
      rw [hN] at hok
      simp [Res.isOk] at hok

/-- C3 witness: on the diamond world, `a.set(1)` with the already-stored 1
is the identity on the state, while `a.set(9)` stores 9, bumps `a`'s version
from 0 to 1, and bumps the epoch from 1 to 2. -/
theorem C3_equality_suppressed_write_witness :
    stateSet 8 diamondInit 0 (.int 1) = .ok diamondInit () ∧
    ((stateSet 8 diamondInit 0 (.int 9)).state.nodes 0).value = .int 9 ∧
    ((stateSet 8 diamondInit 0 (.int 9)).state.nodes 0).version = (diamondInit.nodes 0).version + 1 ∧
    (stateSet 8 diamondInit 0 (.int 9)).state.epoch = diamondInit.epoch + 1 := by
  have h1 := (C3_equality_suppressed_write 8 diamondInit 0 (.int 1) rfl).1 (by decide)
  have h2 := (C3_equality_suppressed_write 8 diamondInit 0 (.int 9) rfl).2 (by decide) (by decide)
  exact ⟨h1, h2.1, h2.2.1, h2.2.2⟩

/-- C4 (amended): while `inNotificationPhase` is true, `State.get()` throws
the read-during-notification error and `State.set()` the
write-during-notification error, each leaving the engine state exactly
unchanged; a `Computed.get()` on a fresh node (not dirty and
`lastCleanEpoch` equal to the current epoch) also throws the
read-during-notification error with the state unchanged.  (Per the
counterexample, a stale Computed still fails but may recompute first,
mutating its value and version, so the unchanged-state guarantee cannot
cover it.) -/
theorem C4_reentrancy_guard_amended :
    ∀ fuel st id v, st.inNotificationPhase = true →
      stateGet fuel st id = .err st (.js .readInNotify) ∧
      stateSet fuel st id v = .err st (.js .writeInNotify) ∧
      (∀ f cid, (st.nodes cid).dirty = false →
        (st.nodes cid).lastCleanEpoch = st.epoch →
        computedGet (f + 2) st cid = .err st (.js .readInNotify)) := by
  intro fuel st id v hphase
  refine ⟨?_, ?_, ?_⟩
  · simp [stateGet, producerAccessed, hphase]
  · simp [stateSet, hphase]
  · intro f cid hdirty hepoch
    simp only [computedGet, producerUpdateValueVersion]
    simp [hdirty, hepoch, producerAccessed, hphase]

/-- C4 witness: in a notification-phase world holding a source at 0 and a
fresh Computed at 1, all three operations throw the respective reentrancy
errors with the state unchanged. -/
theorem C4_reentrancy_guard_witness :
    stateGet 5 reentrFreshInit 0 = .err reentrFreshInit (.js .readInNotify) ∧
    stateSet 5 reentrFreshInit 0 (.int 9) = .err reentrFreshInit (.js .writeInNotify) ∧
    computedGet 5 reentrFreshInit 1 = .err reentrFreshInit (.js .readInNotify) := by
  have h := C4_reentrancy_guard_amended 5 reentrFreshInit 0 (.int 9) rfl
  exact ⟨h.1, h.2.1, h.2.2 3 1 (by decide) (by decide)⟩

theorem stateSet_frame (fuel : Nat) (st : EngineState) (sid : Nat) (v : Value) :
    (stateSet fuel st sid v).state.effects = st.effects ∧
    ∀ id, ((stateSet fuel st sid v).state.nodes id).producerNode = (st.nodes id).producerNode := by
  by_cases hphase : st.inNotificationPhase = true
  · simp only [stateSet, hphase, if_true]
    exact ⟨rfl, fun id => rfl⟩
  · have hphase2 : st.inNotificationPhase = false := by
      cases hb : st.inNotificationPhase
      · rfl
      · exact absurd hb hphase
    by_cases heq : evalEqPred (st.nodes sid).equal (st.nodes sid).value v = true
    · simp only [stateSet, hphase2, Bool.false_eq_true, if_false, heq, if_true]
      exact ⟨rfl, fun id => rfl⟩
    · have heq2 : evalEqPred (st.nodes sid).equal (st.nodes sid).value v = false := by
        cases hb : evalEqPred (st.nodes sid).equal (st.nodes sid).value v
        · rfl
        · exact absurd hb heq
      simp only [stateSet, hphase2, Bool.false_eq_true, if_false, heq2]
      have h := ((notify_frame_all fuel).1 (producerIncrementEpoch
        (modifyNode st sid fun n => { n with value := v, version := n.version + 1 })) sid).1
      obtain ⟨hep, hac, hef, hni, hne, hdo⟩ := h
      constructor
      · rw [hef]
        rfl
      · intro id
        rw [dirtyOnly_producerNode (hdo id)]
        by_cases hid : id = sid
        · subst hid
          simp [producerIncrementEpoch, modifyNode, setNode, updFn]
        · simp [producerIncrementEpoch, modifyNode, setNode, updFn, hid]

theorem watcherWatch_nil (fuel : Nat) (st : EngineState) (wid : Nat) :
    watcherWatch fuel st wid [] =
      .ok (modifyNode st wid fun n => { n with dirty := false }) () := rfl

theorem processPending_frame (fuel : Nat) (st : EngineState)
    (hw : (st.nodes effectWatcherId).producerNode = []) :
    (processPending fuel st).state.effects = st.effects ∧
    ∀ id, ((processPending fuel st).state.nodes id).producerNode = (st.nodes id).producerNode := by
  have hg : getPending
      (modifyNode { st with needsEnqueue := true } effectWatcherId
        fun n => { n with dirty := false }) effectWatcherId = [] := by
    unfold getPending
    simp only [modifyNode, setNode, updFn_same]
    rw [show ({ st with needsEnqueue := true } : EngineState).nodes = st.nodes from rfl]
    simp [hw]
  unfold processPending
  simp only [watcherWatch_nil, hg, pendingLoop]
  refine ⟨rfl, fun id => ?_⟩
  by_cases hid : id = effectWatcherId
  · subst hid
    rfl
  · show (updFn (updFn st.nodes effectWatcherId _) effectWatcherId _ id).producerNode
        = (st.nodes id).producerNode
    rw [updFn_ne _ _ _ _ hid, updFn_ne _ _ _ _ hid]

theorem drainOneMicrotask_frame (fuel : Nat) (st : EngineState)
    (hw : (st.nodes effectWatcherId).producerNode = []) :
    (drainOneMicrotask fuel st).state.effects = st.effects ∧
    ∀ id, ((drainOneMicrotask fuel st).state.nodes id).producerNode = (st.nodes id).producerNode := by
  unfold drainOneMicrotask
  by_cases hm : 0 < st.microtasks
  · simp only [hm, if_true]
    exact processPending_frame fuel { st with microtasks := st.microtasks - 1 } hw
  · simp only [hm, if_false]
    exact ⟨rfl, fun id => rfl⟩

theorem runCmds_frame : ∀ cmds fuel st, (st.nodes effectWatcherId).producerNode = [] →
    (runCmds fuel st cmds).state.effects = st.effects ∧
    ((runCmds fuel st cmds).state.nodes effectWatcherId).producerNode = [] := by
  intro cmds
  induction cmds with
  | nil => exact fun fuel st hw => ⟨rfl, hw⟩
  | cons c rest ih =>
    intro fuel st hw
    cases c with
    | write sid v =>
      simp only [runCmds]
      cases hS : stateSet fuel st sid v with
      | ok s a =>
        have hf := stateSet_frame fuel st sid v
        rw [hS] at hf
        have hw2 : (s.nodes effectWatcherId).producerNode = [] :=
          (hf.2 effectWatcherId).trans hw
        have h2 := ih fuel s hw2
        exact ⟨h2.1.trans hf.1, h2.2⟩
      | err s e =>
        have hf := stateSet_frame fuel st sid v
        rw [hS] at hf
        exact ⟨hf.1, (hf.2 effectWatcherId).trans hw⟩
    | drain =>
      simp only [runCmds]
      cases hS : drainOneMicrotask fuel st with
      | ok s a =>
        have hf := drainOneMicrotask_frame fuel st hw
        rw [hS] at hf
        have hw2 : (s.nodes effectWatcherId).producerNode = [] :=
          (hf.2 effectWatcherId).trans hw
        have h2 := ih fuel s hw2
        exact ⟨h2.1.trans hf.1, h2.2⟩
      | err s e =>
        have hf := drainOneMicrotask_frame fuel st hw
        rw [hS] at hf
        exact ⟨hf.1, (hf.2 effectWatcherId).trans hw⟩

/-- C8 (amended): the disposer unsubscribes the effect's wrapping Computed
from the shared watcher (the watcher's producer list and the Computed's
live-consumer list are both empty afterwards) and invokes the last stored
cleanup exactly once; from any state in which the shared watcher tracks
nothing, every subsequent sequence of source writes and microtask flushes
leaves every effect record — in particular its run and cleanup invocation
counts — untouched, so the disposed effect body never runs again and its
cleanup is not invoked again by any later write or flush.  (Per the
counterexample, a repeated call of the disposer itself does invoke the
cleanup again, so exactly-once release holds per disposer call, not across
repeated ones.) -/
theorem C8_effect_disposal_amended :
    ((effRun2.state.nodes effectWatcherId).producerNode = [] ∧
     (effRun2.state.nodes 2).liveConsumerNode = [] ∧
     (effRun2.state.effects 0).runCount = 1 ∧
     (effRun2.state.effects 0).cleanupCount = 1) ∧
    (∀ fuel st cmds, (st.nodes effectWatcherId).producerNode = [] →
       (runCmds fuel st cmds).state.effects = st.effects ∧
       ((runCmds fuel st cmds).state.nodes effectWatcherId).producerNode = []) := by
  constructor
  · exact ⟨by decide, by decide, by decide, by decide⟩
  · exact fun fuel st cmds hw => runCmds_frame cmds fuel st hw

/-- C8 witness: after the dispose, a dependency write followed by a
microtask flush leaves the effect's run and cleanup counts at 1. -/
theorem C8_effect_disposal_witness :
    ((runCmds 64 effRun2.state [.write 1 (.int 5), .drain]).state.effects 0).runCount = 1 ∧
    ((runCmds 64 effRun2.state [.write 1 (.int 5), .drain]).state.effects 0).cleanupCount = 1 := by
  have h := C8_effect_disposal_amended.2 64 effRun2.state [.write 1 (.int 5), .drain] (by decide)
  rw [h.1]
  exact ⟨by decide, by decide⟩

theorem producerAccessed_append_nonlive :
    ∀ fuel st nid cid,
      st.inNotificationPhase = false →
      st.activeConsumer = some cid →
      cid ≠ nid →
      (st.nodes cid).nextProducerIndex = (st.nodes cid).producerNode.length →
      (st.nodes cid).producerIndexOfThis.length = (st.nodes cid).producerNode.length →
      (st.nodes cid).producerLastReadVersion.length = (st.nodes cid).producerNode.length →
      consumerIsLive (st.nodes cid) = false →
      ∃ s6, producerAccessed fuel st nid = Res.ok s6 () ∧
        s6.nodes cid = { st.nodes cid with
          nextProducerIndex := (st.nodes cid).nextProducerIndex + 1
          producerNode := (st.nodes cid).producerNode ++ [nid]
          producerIndexOfThis := (st.nodes cid).producerIndexOfThis ++ [0]
          producerLastReadVersion :=
            (st.nodes cid).producerLastReadVersion ++ [(st.nodes nid).version] } ∧
        (∀ j, j ≠ cid → s6.nodes j = st.nodes j) ∧
        s6.activeConsumer = st.activeConsumer ∧
        s6.inNotificationPhase = st.inNotificationPhase ∧
        s6.epoch = st.epoch := by
  intro fuel st nid cid hphase hac hne hnpi hpiol hplrv hlive
  unfold producerAccessed
  simp only [hphase, Bool.false_eq_true, if_false, hac]
  have hne2 : nid ≠ cid := Ne.symm hne
  simp only [hnpi, lt_irrefl, false_and, if_false, modifyNode, setNode, updFn_same]
  have hnone : (st.nodes cid).producerNode[(st.nodes cid).producerNode.length]? = none :=
    List.getElem?_eq_none (le_refl _)
  simp only [hnone, ne_eq, reduceCtorEq, not_false_eq_true, if_true]
  simp only [consumerIsLive] at hlive
  simp only [consumerIsLive, hlive, Bool.false_eq_true, if_false]
  simp only [jsWrite, hpiol, hplrv, lt_irrefl, if_false]
  simp only [updFn_ne _ _ _ _ hne2]
  refine ⟨_, rfl, ?_, ?_, ?_, ?_, ?_⟩
  · simp only [updFn_same, hpiol, hplrv, lt_irrefl, if_false]
  · intro j hj
    simp only [updFn_ne _ _ _ _ hj]
  · exact hac
  · exact hphase
  · rfl

theorem producerAccessed_append_live :
    ∀ fuel st nid cid,
      st.inNotificationPhase = false →
      st.activeConsumer = some cid →
      cid ≠ nid →
      (st.nodes cid).nextProducerIndex = (st.nodes cid).producerNode.length →
      (st.nodes cid).producerIndexOfThis.length = (st.nodes cid).producerNode.length →
      (st.nodes cid).producerLastReadVersion.length = (st.nodes cid).producerNode.length →
      consumerIsLive (st.nodes cid) = true →
      (st.nodes nid).liveConsumerNode ≠ [] →
      ∃ s6, producerAccessed (fuel + 1) st nid = Res.ok s6 () ∧
        s6.nodes cid = { st.nodes cid with
          nextProducerIndex := (st.nodes cid).nextProducerIndex + 1
          producerNode := (st.nodes cid).producerNode ++ [nid]
          producerIndexOfThis :=
            (st.nodes cid).producerIndexOfThis ++ [(st.nodes nid).liveConsumerNode.length]
          producerLastReadVersion :=
            (st.nodes cid).producerLastReadVersion ++ [(st.nodes nid).version] } ∧
        s6.nodes nid = { st.nodes nid with
          liveConsumerNode := (st.nodes nid).liveConsumerNode ++ [cid]
          liveConsumerIndexOfThis :=
            (st.nodes nid).liveConsumerIndexOfThis ++ [(st.nodes cid).producerNode.length] } ∧
        (∀ j, j ≠ cid → j ≠ nid → s6.nodes j = st.nodes j) ∧
        s6.activeConsumer = st.activeConsumer ∧
        s6.inNotificationPhase = st.inNotificationPhase ∧
        s6.epoch = st.epoch := by
  intro fuel st nid cid hphase hac hne hnpi hpiol hplrv hlive hlc
  have hne2 : nid ≠ cid := Ne.symm hne
  have hlcz : ¬ ((st.nodes nid).liveConsumerNode.length = 0) := by
    simpa [List.length_eq_zero] using hlc
  unfold producerAccessed
  simp only [hphase, Bool.false_eq_true, if_false, hac]
  simp only [hnpi, lt_irrefl, false_and, if_false, modifyNode, setNode, updFn_same]
  have hnone : (st.nodes cid).producerNode[(st.nodes cid).producerNode.length]? = none :=
    List.getElem?_eq_none (le_refl _)
  simp only [hnone, ne_eq, reduceCtorEq, not_false_eq_true, if_true]
  simp only [consumerIsLive] at hlive
  simp only [consumerIsLive, hlive, if_true]
  simp only [producerAddLiveConsumer]
  simp only [updFn_ne _ _ _ _ hne2, updFn_ne _ _ _ _ hne, updFn_same, hlcz, if_false]
  simp only [jsWrite, hpiol, hplrv, lt_irrefl, if_false]
  simp only [modifyNode, setNode, updFn_ne _ _ _ _ hne2, updFn_ne _ _ _ _ hne, updFn_same]
  refine ⟨_, rfl, ?_, ?_, ?_, ?_, ?_, ?_⟩
  · simp only [updFn_same, updFn_ne _ _ _ _ hne, updFn_ne _ _ _ _ hne2, hpiol, hplrv,
      lt_irrefl, if_false]
  · simp only [updFn_same, updFn_ne _ _ _ _ hne, updFn_ne _ _ _ _ hne2]
  · intro j hj1 hj2
    simp only [updFn_ne _ _ _ _ hj1, updFn_ne _ _ _ _ hj2]
  · exact hac
  · exact hphase
  · rfl

/-- C10: a `Computed.get()` that re-raises a cached error still performs
dependency registration first — with an active consumer installed and the
erroring node fresh, the `get()` throws the cached exception, and in the
throw-state the consumer's producer list has gained the erroring node with
its current version recorded (appended at the consumer's cursor position);
when the consumer is live, the erroring node's live-consumer list has also
gained the consumer (the live-subscription edge).  In the non-live case the
erroring node itself is completely untouched by the call. -/
theorem C10_error_reraise_registers_dependency :
    ∀ f st nid cid e,
      st.inNotificationPhase = false →
      st.activeConsumer = some cid →
      cid ≠ nid →
      (st.nodes nid).dirty = false →
      (st.nodes nid).lastCleanEpoch = st.epoch →
      (st.nodes nid).value = .errored →
      (st.nodes nid).error = some e →
      (st.nodes cid).nextProducerIndex = (st.nodes cid).producerNode.length →
      (st.nodes cid).producerIndexOfThis.length = (st.nodes cid).producerNode.length →
      (st.nodes cid).producerLastReadVersion.length = (st.nodes cid).producerNode.length →
      (consumerIsLive (st.nodes cid) = false →
        ∃ s6, computedGet (f + 2) st nid = Res.err s6 (.js e) ∧
          (s6.nodes cid).producerNode = (st.nodes cid).producerNode ++ [nid] ∧
          (s6.nodes cid).producerLastReadVersion
            = (st.nodes cid).producerLastReadVersion ++ [(st.nodes nid).version] ∧
          s6.nodes nid = st.nodes nid) ∧
      (consumerIsLive (st.nodes cid) = true →
        (st.nodes nid).liveConsumerNode ≠ [] →
        ∃ s6, computedGet (f + 2) st nid = Res.err s6 (.js e) ∧
          (s6.nodes cid).producerNode = (st.nodes cid).producerNode ++ [nid] ∧
          (s6.nodes cid).producerLastReadVersion
            = (st.nodes cid).producerLastReadVersion ++ [(st.nodes nid).version] ∧
          (s6.nodes nid).liveConsumerNode = (st.nodes nid).liveConsumerNode ++ [cid]) := by
  intro f st nid cid e hphase hac hne hdirty hepoch hval herr hnpi hpiol hplrv
  constructor
  · intro hlive
    obtain ⟨s6, hPA, hcid, hrest, hac6, hph6, hep6⟩ :=
      producerAccessed_append_nonlive (f + 1) st nid cid hphase hac hne hnpi hpiol hplrv hlive
    have hnid : s6.nodes nid = st.nodes nid := hrest nid (Ne.symm hne)
    refine ⟨s6, ?_, ?_, ?_, hnid⟩
    · simp only [computedGet, producerUpdateValueVersion, hdirty, hepoch]
      simp only [Bool.false_eq_true, not_false_eq_true, and_self, if_true]
      rw [hPA]
      simp [hnid, hval, herr]
    · rw [hcid]
    · rw [hcid]
  · intro hlive hlc
    obtain ⟨s6, hPA, hcid, hnid, hrest, hac6, hph6, hep6⟩ :=
      producerAccessed_append_live f st nid cid hphase hac hne hnpi hpiol hplrv hlive hlc
    refine ⟨s6, ?_, ?_, ?_, ?_⟩
    · simp only [computedGet, producerUpdateValueVersion, hdirty, hepoch]
      simp only [Bool.false_eq_true, not_false_eq_true, and_self, if_true]
      rw [hPA]
      simp [hnid, hval, herr]
    · rw [hcid]
    · rw [hcid]
    · rw [hnid]

/-- C10 witness: in the concrete worlds with the cached-error Computed at 0
and the active consumer at 1, the `get()` throws the cached tag-3 exception
and the edge (with version 5 recorded) is present in the throw-state, in
both the non-live and the live-consumer variants. -/
theorem C10_error_reraise_registers_dependency_witness :
    (∃ s6, computedGet 2 errCachedInit 0 = Res.err s6 (.js (.userErr 3)) ∧
      (s6.nodes 1).producerNode = (errCachedInit.nodes 1).producerNode ++ [0] ∧
      (s6.nodes 1).producerLastReadVersion
        = (errCachedInit.nodes 1).producerLastReadVersion ++ [(errCachedInit.nodes 0).version] ∧
      s6.nodes 0 = errCachedInit.nodes 0) ∧
    (∃ s6, computedGet 2 errCachedLiveInit 0 = Res.err s6 (.js (.userErr 3)) ∧
      (s6.nodes 1).producerNode = (errCachedLiveInit.nodes 1).producerNode ++ [0] ∧
      (s6.nodes 1).producerLastReadVersion
        = (errCachedLiveInit.nodes 1).producerLastReadVersion ++ [(errCachedLiveInit.nodes 0).version] ∧
      (s6.nodes 0).liveConsumerNode = (errCachedLiveInit.nodes 0).liveConsumerNode ++ [1]) := by
  constructor
  · exact (C10_error_reraise_registers_dependency 0 errCachedInit 0 1 (.userErr 3)
      rfl rfl (by decide) (by decide) (by decide) (by decide) (by decide)
      (by decide) (by decide) (by decide)).1 (by decide)
  · exact (C10_error_reraise_registers_dependency 0 errCachedLiveInit 0 1 (.userErr 3)
      rfl rfl (by decide) (by decide) (by decide) (by decide) (by decide)
      (by decide) (by decide) (by decide)).2 (by decide) (by decide)

theorem watchedDelta_comp {a b c : Nat} (h1 : a ≤ b) (h2 : b ≤ c) :
    watchedDelta a b + watchedDelta b c = watchedDelta a c := by
  unfold watchedDelta
  split_ifs <;> omega

theorem unwatchedDelta_comp {a b c : Nat} (h1 : b ≤ a) (h2 : c ≤ b) :
    unwatchedDelta a b + unwatchedDelta b c = unwatchedDelta a c := by
  unfold unwatchedDelta
  split_ifs <;> omega

theorem AddInv_rfl (rank : Nat → Nat) (b : Nat) (st : EngineState) :
    AddInv rank b st st := by
  refine ⟨fun id => rfl, fun id => ⟨[], by simp⟩, fun id => ?_, fun id => rfl, fun id h => rfl⟩
  simp [watchedDelta]

theorem AddInv_len_le {rank : Nat → Nat} {b : Nat} {st stB : EngineState}
    (h : AddInv rank b st stB) (id : Nat) :
    (st.nodes id).liveConsumerNode.length ≤ (stB.nodes id).liveConsumerNode.length := by
  obtain ⟨t, ht⟩ := h.2.1 id
  rw [ht]
  simp

theorem AddInv_trans {rank : Nat → Nat} {b : Nat} {s1 s2 s3 : EngineState}
    (h1 : AddInv rank b s1 s2) (h2 : AddInv rank b s2 s3) : AddInv rank b s1 s3 := by
  obtain ⟨p1, l1, w1, u1, f1⟩ := h1
  obtain ⟨p2, l2, w2, u2, f2⟩ := h2
  refine ⟨fun id => (p2 id).trans (p1 id), fun id => ?_, fun id => ?_,
    fun id => (u2 id).trans (u1 id), fun id h => (f2 id h).trans (f1 id h)⟩
  · obtain ⟨t1, ht1⟩ := l1 id
    obtain ⟨t2, ht2⟩ := l2 id
    exact ⟨t1 ++ t2, by rw [ht2, ht1, List.append_assoc]⟩
  · rw [w2 id, w1 id, Nat.add_assoc,
      watchedDelta_comp (AddInv_len_le ⟨p1, l1, w1, u1, f1⟩ id)
        (AddInv_len_le ⟨p2, l2, w2, u2, f2⟩ id)]

theorem AddInv_mono {rank : Nat → Nat} {b1 b2 : Nat} {st stB : EngineState}
    (h : AddInv rank b1 st stB) (hb : b1 ≤ b2) : AddInv rank b2 st stB :=
  ⟨h.1, h.2.1, h.2.2.1, h.2.2.2.1, fun id hid => h.2.2.2.2 id (lt_of_le_of_lt hb hid)⟩

theorem coreEq_rfl (a : Node) : coreEq a a := ⟨rfl, rfl, rfl⟩

theorem coreEq_trans {a b c : Node} (h1 : coreEq a b) (h2 : coreEq b c) : coreEq a c :=
  ⟨h2.1.trans h1.1, h2.2.1.trans h1.2.1, h2.2.2.trans h1.2.2⟩

theorem RemInv_rfl (rank : Nat → Nat) (b : Nat) (st : EngineState) :
    RemInv rank b st st := by
  refine ⟨fun id => rfl, fun id => le_refl _, fun id => ?_, fun id => rfl,
    fun id h => coreEq_rfl _⟩
  unfold unwatchedDelta
  split_ifs <;> omega

theorem RemInv_trans {rank : Nat → Nat} {b : Nat} {s1 s2 s3 : EngineState}
    (h1 : RemInv rank b s1 s2) (h2 : RemInv rank b s2 s3) : RemInv rank b s1 s3 := by
  obtain ⟨p1, l1, u1, w1, f1⟩ := h1
  obtain ⟨p2, l2, u2, w2, f2⟩ := h2
  refine ⟨fun id => (p2 id).trans (p1 id), fun id => le_trans (l2 id) (l1 id), fun id => ?_,
    fun id => (w2 id).trans (w1 id), fun id h => coreEq_trans (f1 id h) (f2 id h)⟩
  rw [u2 id, u1 id, Nat.add_assoc, unwatchedDelta_comp (l1 id) (l2 id)]

theorem RemInv_mono {rank : Nat → Nat} {b1 b2 : Nat} {st stB : EngineState}
    (h : RemInv rank b1 st stB) (hb : b1 ≤ b2) : RemInv rank b2 st stB :=
  ⟨h.1, h.2.1, h.2.2.1, h.2.2.2.1, fun id hid => h.2.2.2.2 id (lt_of_le_of_lt hb hid)⟩

theorem RankedProducers_carry {st stB : EngineState} {rank : Nat → Nat}
    (h : RankedProducers st rank)
    (hp : ∀ id, (stB.nodes id).producerNode = (st.nodes id).producerNode) :
    RankedProducers stB rank := by
  intro id p hmem
  rw [hp id] at hmem
  exact h id p hmem

theorem modifyNode_nodes_same (st : EngineState) (i : Nat) (f : Node → Node) :
    (modifyNode st i f).nodes i = f (st.nodes i) := by
  simp [modifyNode, setNode, updFn_same]

theorem modifyNode_nodes_ne (st : EngineState) (i : Nat) (f : Node → Node) (j : Nat)
    (h : j ≠ i) : (modifyNode st i f).nodes j = st.nodes j := by
  simp [modifyNode, setNode, updFn_ne _ _ _ _ h]

theorem addLive_ind (rank : Nat → Nat) : ∀ fuel,
    (∀ st n c i stB r, RankedProducers st rank →
      producerAddLiveConsumer fuel st n c i = .ok stB r →
      AddInv rank (rank n) st stB ∧
      (stB.nodes n).liveConsumerNode = (st.nodes n).liveConsumerNode ++ [c] ∧
      ((st.nodes n).liveConsumerNode = [] →
        ∀ p ∈ (st.nodes n).producerNode, n ∈ (stB.nodes p).liveConsumerNode)) ∧
    (∀ st n i0 stB, RankedProducers st rank →
      addLiveLoop fuel st n i0 = .ok stB () →
      AddInv rank (rank n) st stB ∧
      (stB.nodes n).liveConsumerNode = (st.nodes n).liveConsumerNode ∧
      (∀ j, i0 ≤ j → j < (st.nodes n).producerNode.length →
        n ∈ (stB.nodes ((st.nodes n).producerNode.getD j 0)).liveConsumerNode)) := by
  intro fuel
  induction fuel with
  | zero =>
    constructor
    · intro st n c i stB r hr hEq
      simp only [producerAddLiveConsumer] at hEq
      exact absurd hEq (by simp)
    · intro st n i0 stB hr hEq
      simp only [addLiveLoop] at hEq
      exact absurd hEq (by simp)
  | succ f ih =>
    obtain ⟨ihA, ihL⟩ := ih
    constructor
    · -- producerAddLiveConsumer (f+1)
      intro st n c i stB r hr hEq
      simp only [producerAddLiveConsumer] at hEq
      by_cases hlen : (st.nodes n).liveConsumerNode.length = 0
      · simp only [hlen, if_pos rfl] at hEq
        have hnil : (st.nodes n).liveConsumerNode = [] := List.length_eq_zero.mp hlen
        cases hLoop : addLiveLoop f
            (modifyNode st n fun nd => { nd with watchedCount := nd.watchedCount + 1 }) n 0 with
        | err s e =>
          rw [hLoop] at hEq
          exact absurd hEq (by simp)
        | ok s2 a =>
          rw [hLoop] at hEq
          simp only [] at hEq
          have hbnn : (modifyNode st n fun nd =>
              { nd with watchedCount := nd.watchedCount + 1 }).nodes n
                = { st.nodes n with watchedCount := (st.nodes n).watchedCount + 1 } :=
            modifyNode_nodes_same _ _ _
          have hbn : ∀ id, id ≠ n →
              (modifyNode st n fun nd => { nd with watchedCount := nd.watchedCount + 1 }).nodes id
                = st.nodes id := fun id hid => modifyNode_nodes_ne _ _ _ _ hid
          have hr1 : RankedProducers
              (modifyNode st n fun nd => { nd with watchedCount := nd.watchedCount + 1 }) rank := by
            refine RankedProducers_carry hr (fun id => ?_)
            by_cases hid : id = n
            · rw [hid, hbnn]
            · rw [hbn id hid]
          obtain ⟨hInv, hLive, hMem⟩ := ihL _ n 0 s2 hr1 hLoop
          obtain ⟨hP, hL, hW, hU, hF⟩ := hInv
          have hstB : stB = modifyNode s2 n fun nd =>
              { nd with liveConsumerIndexOfThis := nd.liveConsumerIndexOfThis ++ [i],
                        liveConsumerNode := nd.liveConsumerNode ++ [c] } := by
            cases hEq
            rfl
          subst hstB
          refine ⟨⟨fun id => ?_, fun id => ?_, fun id => ?_, fun id => ?_, fun id hid => ?_⟩,
            ?_, ?_⟩
          · by_cases hid : id = n
            · rw [hid, modifyNode_nodes_same]
              show (s2.nodes n).producerNode = (st.nodes n).producerNode
              rw [hP n, hbnn]
            · rw [modifyNode_nodes_ne _ _ _ _ hid, hP id, hbn id hid]
          · by_cases hid : id = n
            · refine ⟨[c], ?_⟩
              rw [hid, modifyNode_nodes_same]
              show (s2.nodes n).liveConsumerNode ++ [c] = (st.nodes n).liveConsumerNode ++ [c]
              rw [hLive, hbnn]
            · rw [modifyNode_nodes_ne _ _ _ _ hid]
              obtain ⟨t, ht⟩ := hL id
              rw [hbn id hid] at ht
              exact ⟨t, ht⟩
          · by_cases hid : id = n
            · rw [hid, modifyNode_nodes_same]
              show (s2.nodes n).watchedCount = (st.nodes n).watchedCount +
                watchedDelta (st.nodes n).liveConsumerNode.length
                  ((s2.nodes n).liveConsumerNode ++ [c]).length
              have hs2w : (s2.nodes n).watchedCount = (st.nodes n).watchedCount + 1 +
                  watchedDelta (st.nodes n).liveConsumerNode.length
                    (s2.nodes n).liveConsumerNode.length := by
                rw [hW n, hbnn]
              have hs2l : (s2.nodes n).liveConsumerNode = (st.nodes n).liveConsumerNode := by
                rw [hLive, hbnn]
              rw [hs2w, hs2l, hnil]
              unfold watchedDelta
              simp
            · rw [modifyNode_nodes_ne _ _ _ _ hid, hW id, hbn id hid]
          · by_cases hid : id = n
            · rw [hid, modifyNode_nodes_same]
              show (s2.nodes n).unwatchedCount = (st.nodes n).unwatchedCount
              rw [hU n, hbnn]
            · rw [modifyNode_nodes_ne _ _ _ _ hid, hU id, hbn id hid]
          · have hidn : id ≠ n := fun hcon => by
              rw [hcon] at hid
              exact lt_irrefl _ hid
            rw [modifyNode_nodes_ne _ _ _ _ hidn, hF id hid, hbn id hidn]
          · rw [modifyNode_nodes_same]
            show (s2.nodes n).liveConsumerNode ++ [c] = (st.nodes n).liveConsumerNode ++ [c]
            rw [hLive, hbnn]
          · intro hnil2 p hp
            have hpn : p ≠ n := by
              intro hcon
              rw [hcon] at hp
              exact lt_irrefl _ (hr n n hp)
            rw [modifyNode_nodes_ne _ _ _ _ hpn]
            obtain ⟨⟨j, hj⟩, hget⟩ := List.mem_iff_get.mp hp
            have hjlt2 : j < ((modifyNode st n fun nd =>
                { nd with watchedCount := nd.watchedCount + 1 }).nodes n).producerNode.length := by
              rw [hbnn]
              exact hj
            have hm := hMem j (Nat.zero_le j) hjlt2
            have hgd : ((modifyNode st n fun nd =>
                { nd with watchedCount := nd.watchedCount + 1 }).nodes n).producerNode.getD j 0
                  = p := by
              rw [hbnn]
              show (st.nodes n).producerNode.getD j 0 = p
              rw [List.getD_eq_getElem _ _ hj]
              simpa using hget
            rw [hgd] at hm
            exact hm
      · simp only [hlen, if_neg hlen] at hEq
        have hstB : stB = modifyNode st n fun nd =>
            { nd with liveConsumerIndexOfThis := nd.liveConsumerIndexOfThis ++ [i],
                      liveConsumerNode := nd.liveConsumerNode ++ [c] } := by
          cases hEq
          rfl
        subst hstB
        refine ⟨⟨fun id => ?_, fun id => ?_, fun id => ?_, fun id => ?_, fun id hid => ?_⟩,
          ?_, ?_⟩
        · by_cases hid : id = n
          · rw [hid, modifyNode_nodes_same]
          · rw [modifyNode_nodes_ne _ _ _ _ hid]
        · by_cases hid : id = n
          · refine ⟨[c], ?_⟩
            rw [hid, modifyNode_nodes_same]
          · rw [modifyNode_nodes_ne _ _ _ _ hid]
            exact ⟨[], by simp⟩
        · by_cases hid : id = n
          · rw [hid, modifyNode_nodes_same]
            show (st.nodes n).watchedCount = (st.nodes n).watchedCount +
              watchedDelta (st.nodes n).liveConsumerNode.length
                ((st.nodes n).liveConsumerNode ++ [c]).length
            unfold watchedDelta
            simp [hlen]
          · rw [modifyNode_nodes_ne _ _ _ _ hid]
            unfold watchedDelta
            simp
        · by_cases hid : id = n
          · rw [hid, modifyNode_nodes_same]
          · rw [modifyNode_nodes_ne _ _ _ _ hid]
        · have hidn : id ≠ n := fun hcon => by
            rw [hcon] at hid
            exact lt_irrefl _ hid
          rw [modifyNode_nodes_ne _ _ _ _ hidn]
        · rw [modifyNode_nodes_same]
        · intro hnil2
          rw [hnil2] at hlen
          exact absurd rfl hlen
    · -- addLiveLoop (f+1)
      intro st n i0 stB hr hEq
      simp only [addLiveLoop] at hEq
      by_cases hlt : i0 < (st.nodes n).producerNode.length
      · simp only [dif_pos hlt] at hEq
        cases hSub : producerAddLiveConsumer f st ((st.nodes n).producerNode.get ⟨i0, hlt⟩)
            n i0 with
        | err s e =>
          rw [hSub] at hEq
          exact absurd hEq (by simp)
        | ok s2 idx =>
          rw [hSub] at hEq
          simp only [] at hEq
          have hpmem : (st.nodes n).producerNode.get ⟨i0, hlt⟩ ∈ (st.nodes n).producerNode :=
            List.get_mem _ _ _
          have hprank : rank ((st.nodes n).producerNode.get ⟨i0, hlt⟩) < rank n :=
            hr n _ hpmem
          have hpn : (st.nodes n).producerNode.get ⟨i0, hlt⟩ ≠ n := by
            intro hcon
            rw [hcon] at hprank
            exact lt_irrefl _ hprank
          obtain ⟨hInvS, hLiveS, hMemS⟩ := ihA st _ n i0 s2 idx hr hSub
          have hSn : s2.nodes n = st.nodes n := hInvS.2.2.2.2 n hprank
          have hr2 : RankedProducers s2 rank := RankedProducers_carry hr hInvS.1
          have hpio3 : ∀ id, id ≠ n → (modifyNode s2 n fun nd =>
              { nd with producerIndexOfThis := jsWrite nd.producerIndexOfThis i0 idx }).nodes id
                = s2.nodes id := fun id hid => modifyNode_nodes_ne _ _ _ _ hid
          have hpio4 : (modifyNode s2 n fun nd =>
              { nd with producerIndexOfThis := jsWrite nd.producerIndexOfThis i0 idx }).nodes n
                = { s2.nodes n with
                    producerIndexOfThis := jsWrite (s2.nodes n).producerIndexOfThis i0 idx } :=
            modifyNode_nodes_same _ _ _
          have hr3 : RankedProducers (modifyNode s2 n fun nd =>
              { nd with producerIndexOfThis := jsWrite nd.producerIndexOfThis i0 idx }) rank := by
            refine RankedProducers_carry hr2 (fun id => ?_)
            by_cases hid : id = n
            · rw [hid, hpio4]
            · rw [hpio3 id hid]
          obtain ⟨hInvL, hLiveL, hMemL⟩ := ihL _ n (i0 + 1) stB hr3 hEq
          have hpio : AddInv rank (rank n) s2 (modifyNode s2 n fun nd =>
              { nd with producerIndexOfThis := jsWrite nd.producerIndexOfThis i0 idx }) := by
            refine ⟨fun id => ?_, fun id => ?_, fun id => ?_, fun id => ?_, fun id hid => ?_⟩
            · by_cases hid : id = n
              · rw [hid, hpio4]
              · rw [hpio3 id hid]
            · by_cases hid : id = n
              · rw [hid, hpio4]
                exact ⟨[], by simp⟩
              · rw [hpio3 id hid]
                exact ⟨[], by simp⟩
            · by_cases hid : id = n
              · rw [hid, hpio4]
                show (s2.nodes n).watchedCount = (s2.nodes n).watchedCount +
                  watchedDelta (s2.nodes n).liveConsumerNode.length
                    (s2.nodes n).liveConsumerNode.length
                unfold watchedDelta
                split_ifs <;> omega
              · rw [hpio3 id hid]
                unfold watchedDelta
                split_ifs <;> omega
            · by_cases hid : id = n
              · rw [hid, hpio4]
              · rw [hpio3 id hid]
            · have hidn : id ≠ n := fun hcon => by
                rw [hcon] at hid
                exact lt_irrefl _ hid
              rw [hpio3 id hidn]
          have hInvS2 : AddInv rank (rank n) st s2 :=
            AddInv_mono hInvS (le_of_lt hprank)
          have hPio2 : ((modifyNode s2 n fun nd =>
              { nd with producerIndexOfThis := jsWrite nd.producerIndexOfThis i0 idx }).nodes
                n).producerNode = (st.nodes n).producerNode := by
            rw [hpio4, hSn]
          refine ⟨AddInv_trans (AddInv_trans hInvS2 hpio) hInvL, ?_, ?_⟩
          · rw [hLiveL, hpio4, hSn]
          · intro j hj hjlt
            by_cases hj0 : j = i0
            · have hgd : (st.nodes n).producerNode.getD j 0
                  = (st.nodes n).producerNode.get ⟨i0, hlt⟩ := by
                rw [hj0, List.getD_eq_getElem _ _ hlt]
                rfl
              rw [hgd]
              have hm1 : n ∈ (s2.nodes ((st.nodes n).producerNode.get
                  ⟨i0, hlt⟩)).liveConsumerNode := by
                rw [hLiveS]
                exact List.mem_append_right _ (List.mem_singleton.mpr rfl)
              have hm2 : n ∈ ((modifyNode s2 n fun nd =>
                  { nd with producerIndexOfThis := jsWrite nd.producerIndexOfThis i0 idx }).nodes
                    ((st.nodes n).producerNode.get ⟨i0, hlt⟩)).liveConsumerNode := by
                rw [hpio3 _ hpn]
                exact hm1
              obtain ⟨t, ht⟩ := hInvL.2.1 ((st.nodes n).producerNode.get ⟨i0, hlt⟩)
              rw [ht]
              exact List.mem_append_left _ hm2
            · have hj1 : i0 + 1 ≤ j := by omega
              have hjlt2 : j < ((modifyNode s2 n fun nd =>
                  { nd with producerIndexOfThis := jsWrite nd.producerIndexOfThis i0 idx }).nodes
                    n).producerNode.length := by
                rw [hPio2]
                exact hjlt
              have hm := hMemL j hj1 hjlt2
              have hgd2 : ((modifyNode s2 n fun nd =>
                  { nd with producerIndexOfThis := jsWrite nd.producerIndexOfThis i0 idx }).nodes
                    n).producerNode.getD j 0 = (st.nodes n).producerNode.getD j 0 := by
                rw [hPio2]
              rw [hgd2] at hm
              exact hm
      · simp only [dif_neg hlt] at hEq
        cases hEq
        exact ⟨AddInv_rfl _ _ _, rfl, fun j hj hjlt => absurd hjlt (by omega)⟩

theorem pio_proj (s : EngineState) (c j v id : Nat) :
    ((modifyNode s c fun nd =>
      { nd with producerIndexOfThis := jsWrite nd.producerIndexOfThis j v }).nodes
        id).producerNode = (s.nodes id).producerNode ∧
    ((modifyNode s c fun nd =>
      { nd with producerIndexOfThis := jsWrite nd.producerIndexOfThis j v }).nodes
        id).liveConsumerNode = (s.nodes id).liveConsumerNode ∧
    ((modifyNode s c fun nd =>
      { nd with producerIndexOfThis := jsWrite nd.producerIndexOfThis j v }).nodes
        id).watchedCount = (s.nodes id).watchedCount ∧
    ((modifyNode s c fun nd =>
      { nd with producerIndexOfThis := jsWrite nd.producerIndexOfThis j v }).nodes
        id).unwatchedCount = (s.nodes id).unwatchedCount := by
  by_cases hid : id = c
  · rw [hid, modifyNode_nodes_same]
    exact ⟨rfl, rfl, rfl, rfl⟩
  · rw [modifyNode_nodes_ne _ _ _ _ hid]
    exact ⟨rfl, rfl, rfl, rfl⟩

theorem removeLive_ind (rank : Nat → Nat) : ∀ fuel,
    (∀ st n idx stB, RankedProducers st rank →
      producerRemoveLiveConsumerAtIndex fuel st n idx = .ok stB () →
      RemInv rank (rank n) st stB ∧
      (stB.nodes n).liveConsumerNode.length + 1 = (st.nodes n).liveConsumerNode.length) ∧
    (∀ st n i0 stB, RankedProducers st rank →
      removeLiveLoop fuel st n i0 = .ok stB () →
      RemInv rank (rank n) st stB ∧ coreEq (st.nodes n) (stB.nodes n)) := by
  intro fuel
  induction fuel with
  | zero =>
    constructor
    · intro st n idx stB hr hEq
      simp only [producerRemoveLiveConsumerAtIndex] at hEq
      exact absurd hEq (by simp)
    · intro st n i0 stB hr hEq
      simp only [removeLiveLoop] at hEq
      exact absurd hEq (by simp)
  | succ f ih =>
    obtain ⟨ihA, ihL⟩ := ih
    constructor
    · -- producerRemoveLiveConsumerAtIndex (f+1)
      intro st n idx stB hr hEq
      simp only [producerRemoveLiveConsumerAtIndex] at hEq
      split at hEq
      · exact absurd hEq (by simp)
      · rename_i s2 a heq
        by_cases hlen : (st.nodes n).liveConsumerNode.length = 1
        · rw [if_pos hlen] at heq
          cases a
          have hbnn : (modifyNode st n fun nd =>
              { nd with unwatchedCount := nd.unwatchedCount + 1 }).nodes n
                = { st.nodes n with unwatchedCount := (st.nodes n).unwatchedCount + 1 } :=
            modifyNode_nodes_same _ _ _
          have hbn : ∀ id, id ≠ n →
              (modifyNode st n fun nd =>
                { nd with unwatchedCount := nd.unwatchedCount + 1 }).nodes id
                = st.nodes id := fun id hid => modifyNode_nodes_ne _ _ _ _ hid
          have hr1 : RankedProducers
              (modifyNode st n fun nd =>
                { nd with unwatchedCount := nd.unwatchedCount + 1 }) rank := by
            refine RankedProducers_carry hr (fun id => ?_)
            by_cases hid : id = n
            · rw [hid, hbnn]
            · rw [hbn id hid]
          obtain ⟨hInvL, hCore⟩ := ihL _ n 0 s2 hr1 heq
          obtain ⟨hP, hL, hU, hW, hF⟩ := hInvL
          have hs2l : (s2.nodes n).liveConsumerNode = (st.nodes n).liveConsumerNode := by
            rw [hCore.1, hbnn]
          have h1 : (s2.nodes n).liveConsumerNode.length = 1 := by
            rw [hs2l]
            exact hlen
          by_cases hidx : idx < (s2.nodes n).liveConsumerNode.length
          · rw [if_pos hidx] at hEq
            have hno : ¬ idx < ((s2.nodes n).liveConsumerNode.set idx
                ((s2.nodes n).liveConsumerNode.getD
                  ((s2.nodes n).liveConsumerNode.length - 1) 0)).dropLast.length := by
              simp [h1]
            rw [if_neg hno] at hEq
            cases hEq
            refine ⟨⟨fun id => ?_, fun id => ?_, fun id => ?_, fun id => ?_,
              fun id hid => ?_⟩, ?_⟩
            · by_cases hid : id = n
              · rw [hid, modifyNode_nodes_same]
                show (s2.nodes n).producerNode = (st.nodes n).producerNode
                rw [hP n, hbnn]
              · rw [modifyNode_nodes_ne _ _ _ _ hid, hP id, hbn id hid]
            · by_cases hid : id = n
              · rw [hid, modifyNode_nodes_same]
                simp [List.length_set, h1, hlen]
              · rw [modifyNode_nodes_ne _ _ _ _ hid]
                have := hL id
                rw [hbn id hid] at this
                exact this
            · by_cases hid : id = n
              · rw [hid, modifyNode_nodes_same]
                have hs2u : (s2.nodes n).unwatchedCount
                    = (st.nodes n).unwatchedCount + 1 := by
                  rw [hCore.2.2, hbnn]
                unfold unwatchedDelta
                simp [List.length_set, h1, hlen, hs2u]
              · rw [modifyNode_nodes_ne _ _ _ _ hid]
                have := hU id
                rw [hbn id hid] at this
                exact this
            · by_cases hid : id = n
              · rw [hid, modifyNode_nodes_same]
                show (s2.nodes n).watchedCount = (st.nodes n).watchedCount
                rw [hCore.2.1, hbnn]
              · rw [modifyNode_nodes_ne _ _ _ _ hid, hW id, hbn id hid]
            · have hidn : id ≠ n := fun hcon => by
                rw [hcon] at hid
                exact lt_irrefl _ hid
              rw [modifyNode_nodes_ne _ _ _ _ hidn]
              have hc := hF id hid
              rw [hbn id hidn] at hc
              exact hc
            · rw [modifyNode_nodes_same]
              simp [List.length_set, h1, hlen]
          · rw [if_neg hidx] at hEq
            exact absurd hEq (by simp)
        · rw [if_neg hlen] at heq
          cases heq
          by_cases hidx : idx < (st.nodes n).liveConsumerNode.length
          · rw [if_pos hidx] at hEq
            by_cases hidx2 : idx < ((st.nodes n).liveConsumerNode.set idx
                ((st.nodes n).liveConsumerNode.getD
                  ((st.nodes n).liveConsumerNode.length - 1) 0)).dropLast.length
            · rw [if_pos hidx2] at hEq
              cases hEq
              refine ⟨⟨fun id => ?_, fun id => ?_, fun id => ?_, fun id => ?_,
                fun id hid => ?_⟩, ?_⟩
              · rw [(pio_proj _ _ _ _ id).1]
                by_cases hid : id = n
                · rw [hid, modifyNode_nodes_same]
                · rw [modifyNode_nodes_ne _ _ _ _ hid]
              · rw [(pio_proj _ _ _ _ id).2.1]
                by_cases hid : id = n
                · rw [hid, modifyNode_nodes_same]
                  simp [List.length_set]
                · rw [modifyNode_nodes_ne _ _ _ _ hid]
              · rw [(pio_proj _ _ _ _ id).2.2.2, (pio_proj _ _ _ _ id).2.1]
                by_cases hid : id = n
                · rw [hid, modifyNode_nodes_same]
                  unfold unwatchedDelta
                  split_ifs with hc
                  · simp only [List.length_dropLast, List.length_set] at hc
                    omega
                  · simp
                · rw [modifyNode_nodes_ne _ _ _ _ hid]
                  unfold unwatchedDelta
                  split_ifs with hc
                  · omega
                  · simp
              · rw [(pio_proj _ _ _ _ id).2.2.1]
                by_cases hid : id = n
                · rw [hid, modifyNode_nodes_same]
                · rw [modifyNode_nodes_ne _ _ _ _ hid]
              · have hidn : id ≠ n := fun hcon => by
                  rw [hcon] at hid
                  exact lt_irrefl _ hid
                refine ⟨?_, ?_, ?_⟩
                · rw [(pio_proj _ _ _ _ id).2.1, modifyNode_nodes_ne _ _ _ _ hidn]
                · rw [(pio_proj _ _ _ _ id).2.2.1, modifyNode_nodes_ne _ _ _ _ hidn]
                · rw [(pio_proj _ _ _ _ id).2.2.2, modifyNode_nodes_ne _ _ _ _ hidn]
              · rw [(pio_proj _ _ _ _ n).2.1, modifyNode_nodes_same]
                simp only [List.length_dropLast, List.length_set]
                omega
            · rw [if_neg hidx2] at hEq
              cases hEq
              refine ⟨⟨fun id => ?_, fun id => ?_, fun id => ?_, fun id => ?_,
                fun id hid => ?_⟩, ?_⟩
              · by_cases hid : id = n
                · rw [hid, modifyNode_nodes_same]
                · rw [modifyNode_nodes_ne _ _ _ _ hid]
              · by_cases hid : id = n
                · rw [hid, modifyNode_nodes_same]
                  simp [List.length_set]
                · rw [modifyNode_nodes_ne _ _ _ _ hid]
              · by_cases hid : id = n
                · rw [hid, modifyNode_nodes_same]
                  unfold unwatchedDelta
                  split_ifs with hc
                  · simp only [List.length_dropLast, List.length_set] at hc
                    omega
                  · simp
                · rw [modifyNode_nodes_ne _ _ _ _ hid]
                  unfold unwatchedDelta
                  split_ifs with hc
                  · omega
                  · simp
              · by_cases hid : id = n
                · rw [hid, modifyNode_nodes_same]
                · rw [modifyNode_nodes_ne _ _ _ _ hid]
              · have hidn : id ≠ n := fun hcon => by
                  rw [hcon] at hid
                  exact lt_irrefl _ hid
                refine ⟨?_, ?_, ?_⟩
                · rw [modifyNode_nodes_ne _ _ _ _ hidn]
                · rw [modifyNode_nodes_ne _ _ _ _ hidn]
                · rw [modifyNode_nodes_ne _ _ _ _ hidn]
              · rw [modifyNode_nodes_same]
                simp only [List.length_dropLast, List.length_set]
                omega
          · rw [if_neg hidx] at hEq
            exact absurd hEq (by simp)
    · -- removeLiveLoop (f+1)
      intro st n i0 stB hr hEq
      simp only [removeLiveLoop] at hEq
      by_cases hlt : i0 < (st.nodes n).producerNode.length
      · rw [if_pos hlt] at hEq
        cases hSub : producerRemoveLiveConsumerAtIndex f st
            ((st.nodes n).producerNode.getD i0 0)
            ((st.nodes n).producerIndexOfThis.getD i0 0) with
        | err s e =>
          rw [hSub] at hEq
          exact absurd hEq (by simp)
        | ok s2 a =>
          rw [hSub] at hEq
          simp only [] at hEq
          have hpmem : (st.nodes n).producerNode.getD i0 0 ∈ (st.nodes n).producerNode := by
            rw [List.getD_eq_getElem _ _ hlt]
            exact List.getElem_mem _
          have hprank : rank ((st.nodes n).producerNode.getD i0 0) < rank n :=
            hr n _ hpmem
          obtain ⟨hInvS, hLenS⟩ := ihA st ((st.nodes n).producerNode.getD i0 0)
            ((st.nodes n).producerIndexOfThis.getD i0 0) s2 hr hSub
          have hr2 : RankedProducers s2 rank := RankedProducers_carry hr hInvS.1
          have hCoreN : coreEq (st.nodes n) (s2.nodes n) := hInvS.2.2.2.2 n hprank
          obtain ⟨hInvL, hCoreL⟩ := ihL s2 n (i0 + 1) stB hr2 hEq
          exact ⟨RemInv_trans (RemInv_mono hInvS (le_of_lt hprank)) hInvL,
            coreEq_trans hCoreN hCoreL⟩
      · rw [if_neg hlt] at hEq
        cases hEq
        exact ⟨RemInv_rfl _ _ _, coreEq_rfl _⟩

/-- C7: the watched/unwatched lifecycle hook points fire exactly once per
transition of a producer's live-consumer count between zero and non-zero and
never redundantly: one subscribe bumps `watchedCount` by exactly the
zero-to-nonzero transition delta and leaves every `unwatchedCount` alone,
appends the consumer, and on the zero-to-one transition subscribes the node
to all of its own producers; one unsubscribe bumps `unwatchedCount` by
exactly the nonzero-to-zero transition delta, leaves every `watchedCount`
alone, and removes exactly one live consumer.  Producer edges are untouched
by both, so the accounting composes over any sequence of subscribes and
unsubscribes on an acyclic (rank-ordered) graph. -/
theorem C7_watched_unwatched_lifecycle (rank : Nat → Nat) (fuel : Nat)
    (st : EngineState) (hr : RankedProducers st rank) :
    (∀ n c i stB r, producerAddLiveConsumer fuel st n c i = .ok stB r →
      (∀ id, (stB.nodes id).producerNode = (st.nodes id).producerNode) ∧
      (∀ id, (stB.nodes id).watchedCount = (st.nodes id).watchedCount +
        watchedDelta (st.nodes id).liveConsumerNode.length
          (stB.nodes id).liveConsumerNode.length) ∧
      (∀ id, (stB.nodes id).unwatchedCount = (st.nodes id).unwatchedCount) ∧
      (stB.nodes n).liveConsumerNode = (st.nodes n).liveConsumerNode ++ [c] ∧
      ((st.nodes n).liveConsumerNode = [] →
        ∀ p ∈ (st.nodes n).producerNode, n ∈ (stB.nodes p).liveConsumerNode)) ∧
    (∀ n idx stB, producerRemoveLiveConsumerAtIndex fuel st n idx = .ok stB () →
      (∀ id, (stB.nodes id).producerNode = (st.nodes id).producerNode) ∧
      (∀ id, (stB.nodes id).unwatchedCount = (st.nodes id).unwatchedCount +
        unwatchedDelta (st.nodes id).liveConsumerNode.length
          (stB.nodes id).liveConsumerNode.length) ∧
      (∀ id, (stB.nodes id).watchedCount = (st.nodes id).watchedCount) ∧
      (stB.nodes n).liveConsumerNode.length + 1
        = (st.nodes n).liveConsumerNode.length) := by
  constructor
  · intro n c i stB r hEq
    obtain ⟨hInv, hLive, hSub⟩ := (addLive_ind rank fuel).1 st n c i stB r hr hEq
    exact ⟨hInv.1, hInv.2.2.1, hInv.2.2.2.1, hLive, hSub⟩
  · intro n idx stB hEq
    obtain ⟨hInv, hLen⟩ := (removeLive_ind rank fuel).1 st n idx stB hr hEq
    exact ⟨hInv.1, hInv.2.2.1, hInv.2.2.2.1, hLen⟩

theorem C7_watched_unwatched_lifecycle_witness :
    RankedProducers lifecycleInit (fun id => id) ∧
    (lifecycleAdd.state.nodes 1).liveConsumerNode
      = (lifecycleInit.nodes 1).liveConsumerNode ++ [9] ∧
    (∀ p ∈ (lifecycleInit.nodes 1).producerNode,
      1 ∈ (lifecycleAdd.state.nodes p).liveConsumerNode) ∧
    (lifecycleRemove.state.nodes 1).liveConsumerNode.length + 1
      = (lifecycleAdd.state.nodes 1).liveConsumerNode.length := by
  have hr1 : RankedProducers lifecycleInit (fun id => id) := by
    intro id p hp
    by_cases h1 : id = 1
    · subst h1
      have hpn : (lifecycleInit.nodes 1).producerNode = [0] := by decide
      rw [hpn] at hp
      simp at hp
      simp [hp]
    · have hpn : (lifecycleInit.nodes id).producerNode = [] := by
        by_cases h0 : id = 0
        · subst h0
          decide
        · simp only [lifecycleInit]
          rw [updFn_ne _ _ _ _ h1, updFn_ne _ _ _ _ h0]
          rfl
      rw [hpn] at hp
      simp at hp
  have hA := (C7_watched_unwatched_lifecycle (fun id => id) 16 lifecycleInit hr1).1
    1 9 0 lifecycleAdd.state 0 rfl
  have hr2 : RankedProducers lifecycleAdd.state (fun id => id) :=
    RankedProducers_carry hr1 hA.1
  have hR := (C7_watched_unwatched_lifecycle (fun id => id) 16 lifecycleAdd.state hr2).2
    1 0 lifecycleRemove.state rfl
  refine ⟨hr1, hA.2.2.2.1, ?_, hR.2.2.2⟩
  have hnil : (lifecycleInit.nodes 1).liveConsumerNode = [] := by decide
  exact hA.2.2.2.2 hnil

/-- C1: Diamond dependency — with `a = State(1)` and derived nodes
`b = Computed(() => a.get() + 1)`, `c = Computed(() => a.get() * 2)`,
`d = Computed(() => b.get() + c.get())`, the first `d.get()` computes `d`
once (value 4); after a single value-changing `a.set(5)`, one `d.get()`
invokes `d`'s computation exactly once more — not twice — and returns the
value consistent with the write (16): the producer-version poll prevents
double recomputation of the doubly-reached node. -/
theorem C1_diamond_single_recompute :
    diamondRun1.okValue = some (.int 4) ∧
    (diamondRun1.state.nodes 3).recomputeCount = 1 ∧
    diamondRun3.okValue = some (.int 16) ∧
    (diamondRun3.state.nodes 3).recomputeCount = 2 := by decide

/-- C2: Memoization — for `m = Computed(() => a.get() * a.get())` over
`a = State(3)`, the first `get()` computes once (value 9); a second `get()`
is short-circuited by the not-dirty-and-`lastCleanEpoch == epoch` fast path;
after an unrelated write advances the epoch (so `lastCleanEpoch = 1` while
`epoch = 2`), a third `get()` is short-circuited by the producer-version
poll finding no change: across all of it the computation runs exactly
once. -/
theorem C2_memoization :
    memoRun1.okValue = some (.int 9) ∧
    (memoRun1.state.nodes 2).recomputeCount = 1 ∧
    (memoRun2.state.nodes 2).recomputeCount = 1 ∧
    (memoRun3.state.nodes 2).lastCleanEpoch = 1 ∧
    memoRun3.state.epoch = 2 ∧
    memoRun4.okValue = some (.int 9) ∧
    (memoRun4.state.nodes 2).recomputeCount = 1 := by decide

/-- C5: Cycle detection — for `a = Computed(() => a.get() + 1)`, the
self-read happens while `a`'s value is the `COMPUTING` sentinel, so
`a.get()` fails with the cycle error; the node's cached error becomes that
cycle error (value `ERRORED`), and a subsequent `get()` re-raises it. -/
theorem C5_cycle_detection :
    cycleRun1.jsError = some .cycle ∧
    (cycleRun1.state.nodes 0).value = .errored ∧
    (cycleRun1.state.nodes 0).error = some .cycle ∧
    cycleRun2.jsError = some .cycle := by decide

/-- C6: Computation-error caching — for a Computed whose computation throws
(tag 7) while `s.get()` is truthy: the first `get()` raises it, sets the
value to `ERRORED`, caches the exception and bumps the version to 1; a
second `get()` re-raises the identical cached exception without recomputing
(count still 1); after `s.set(2)` changes a producer version, the next
`get()` recomputes, throws again and bumps the version again (an error is a
value change); after `s.set(0)` the computation succeeds with 42 and the
version bumps once more (the previous `ERRORED` value suppresses the
equality shortcut). -/
theorem C6_error_caching :
    errRun1.jsError = some (.userErr 7) ∧
    (errRun1.state.nodes 1).value = .errored ∧
    (errRun1.state.nodes 1).error = some (.userErr 7) ∧
    (errRun1.state.nodes 1).version = 1 ∧
    errRun2.jsError = some (.userErr 7) ∧
    (errRun2.state.nodes 1).recomputeCount = 1 ∧
    errRun4.jsError = some (.userErr 7) ∧
    (errRun4.state.nodes 1).version = 2 ∧
    errRun6.okValue = some (.int 42) ∧
    (errRun6.state.nodes 1).version = 3 := by decide

/-- C9: Dynamic dependency re-tracking — a live
`m = Computed(() => flag.get() ? x.get() : y.get())` first reads
`flag, x` (value 10); after `flag.set(0)` it recomputes reading `flag, y`
(value 20), its producer list becomes `[flag, y]` with the edge to `x`
removed, and the live subscription to `x` is torn down (its live-consumer
list is empty again and its `unwatched` hook point fired once); a
subsequent `x.set(99)` neither marks `m` dirty nor triggers any
recomputation of it on the next `get()`. -/
theorem C9_dynamic_dependency_retracking :
    dynRun2.okValue = some (.int 10) ∧
    dynRun4.okValue = some (.int 20) ∧
    (dynRun4.state.nodes 3).producerNode = [0, 2] ∧
    (dynRun4.state.nodes 1).liveConsumerNode = [] ∧
    (dynRun4.state.nodes 1).unwatchedCount = 1 ∧
    (dynRun5.state.nodes 3).dirty = false ∧
    (dynRun6.state.nodes 3).recomputeCount = 2 := by decide

/-- C4 counterexample: a `Computed.get()` issued while
`inNotificationPhase` is true (as from a watcher's notify callback) does
throw the read-during-notification error, but it does NOT leave the graph
state unchanged when the node is stale: `producerUpdateValueVersion` runs
before the `producerAccessed` guard, so the never-computed
`Computed(() => 42)` at slot 0 is recomputed first — its version moves from
0 to 1 and its value becomes 42 — and only then does the call throw. -/
theorem C4_reentrancy_counterexample :
    reentrRun.jsError = some .readInNotify ∧
    (reentrInit.nodes 0).version = 0 ∧
    (reentrRun.state.nodes 0).version = 1 ∧
    (reentrRun.state.nodes 0).value = .int 42 := by decide

/-- C8 counterexample: the disposer neither clears nor guards the stored
`cleanup`, so calling the disposer of an effect whose callback returned a
cleanup twice invokes that cleanup twice (count 1 after the first call, 2
after the second, which completes normally) — the cleanup is not released
exactly once under a repeated disposer call. -/
theorem C8_double_dispose_counterexample :
    (effRun2.state.effects 0).cleanupCount = 1 ∧
    (effRun3.state.effects 0).cleanupCount = 2 ∧
    effRun3.isOk = true := by decide
